import Mathlib

set_option maxHeartbeats 1000000

attribute [local semireducible] Rat.add Rat.mul Rat.inv Rat.sub

/-!
Verification development for the technical-indicator computation module
(`src/technical_analysis.py`, class `TechnicalAnalyzer`).

The pandas/numpy code is embedded shallowly:

* float values are modelled by `EF`: finite rationals, the two infinities
  and NaN, with NaN-propagating arithmetic, IEEE-style signed division by
  zero, and comparisons that are false whenever NaN is involved (signed
  zero is not modelled; the module never observes it);
* a `pandas.DataFrame` is a list of named columns of `EF` values in
  insertion order; column assignment replaces in place or appends at the
  end, exactly as pandas does;
* `Series.rolling(w).mean/min/max/std` use the pandas default
  `min_periods = w` (output NaN while the window is short or contains NaN);
* `Series.ewm(..., adjust=False).mean()` follows the pandas recurrence
  with `ignore_na=False`: leading NaNs stay NaN, a NaN observation keeps
  the previous smoothed value while decaying the old weight;
* `np.max(ranges, axis=1)` dispatches to `DataFrame.max(axis=1)`, which
  skips NaN entries (`skipna=True`), and is modelled by `EF.maxSkipNa`;
* the `ValueError` raised by `calculate_all_indicators` becomes
  `Except.error`.
-/

/-- Character-list prefix test (Boolean). -/
def charsStart : List Char → List Char → Bool
  | [], _ => true
  | _ :: _, [] => false
  | p :: ps, s :: ss => p == s && charsStart ps ss

/-- `String.startsWith`, re-expressed on the character lists so that it
evaluates inside the kernel. -/
def strStarts (p s : String) : Bool := charsStart p.data s.data

/-- Lexicographic character-list comparison by code point. -/
def charsLt : List Char → List Char → Bool
  | [], [] => false
  | [], _ :: _ => true
  | _ :: _, [] => false
  | c :: cs, d :: ds => decide (c < d) || (c == d && charsLt cs ds)

/-- Python string `<`: lexicographic comparison by code point. -/
def strLt (s t : String) : Bool := charsLt s.data t.data

/-- IEEE-754-style extended value: NaN, the two infinities, or a finite
rational. Stands for the Python floats flowing through the module. -/
inductive EF where
  | nan : EF
  | pinf : EF
  | ninf : EF
  | fin : ℚ → EF
deriving DecidableEq, Repr

namespace EF

/-- NaN test (Python `x != x`). -/
def isNan : EF → Bool
  | nan => true
  | _ => false

/-- Float addition: NaN propagates, `inf + (-inf)` is NaN. -/
def add : EF → EF → EF
  | nan, _ => nan
  | _, nan => nan
  | pinf, ninf => nan
  | ninf, pinf => nan
  | pinf, _ => pinf
  | _, pinf => pinf
  | ninf, _ => ninf
  | _, ninf => ninf
  | fin a, fin b => fin (a + b)

/-- Float negation. -/
def neg : EF → EF
  | nan => nan
  | pinf => ninf
  | ninf => pinf
  | fin a => fin (-a)

/-- Float subtraction. -/
def sub (a b : EF) : EF := add a (neg b)

/-- Float multiplication: NaN propagates, `inf * 0` is NaN. -/
def mul : EF → EF → EF
  | nan, _ => nan
  | _, nan => nan
  | pinf, pinf => pinf
  | pinf, ninf => ninf
  | ninf, pinf => ninf
  | ninf, ninf => pinf
  | pinf, fin b => if 0 < b then pinf else if b < 0 then ninf else nan
  | fin a, pinf => if 0 < a then pinf else if a < 0 then ninf else nan
  | ninf, fin b => if 0 < b then ninf else if b < 0 then pinf else nan
  | fin a, ninf => if 0 < a then ninf else if a < 0 then pinf else nan
  | fin a, fin b => fin (a * b)

/-- Float division: `x/0` is a signed infinity for `x ≠ 0` and NaN for
`0/0`; `inf/inf` is NaN; a finite value divided by infinity is 0. -/
def div : EF → EF → EF
  | nan, _ => nan
  | _, nan => nan
  | pinf, pinf => nan
  | pinf, ninf => nan
  | ninf, pinf => nan
  | ninf, ninf => nan
  | fin _, pinf => fin 0
  | fin _, ninf => fin 0
  | pinf, fin b => if b < 0 then ninf else pinf
  | ninf, fin b => if b < 0 then pinf else ninf
  | fin a, fin b =>
      if b = 0 then (if 0 < a then pinf else if a < 0 then ninf else nan)
      else fin (a / b)

/-- Float strict comparison `a < b`: false whenever NaN is involved. -/
def blt : EF → EF → Bool
  | nan, _ => false
  | _, nan => false
  | ninf, ninf => false
  | ninf, _ => true
  | _, ninf => false
  | pinf, _ => false
  | _, pinf => true
  | fin a, fin b => decide (a < b)

/-- Float absolute value. -/
def eabs : EF → EF
  | nan => nan
  | pinf => pinf
  | ninf => pinf
  | fin a => fin |a|

/-- Binary maximum that skips NaN operands, as `DataFrame.max(axis=1)`
does with its default `skipna=True`. -/
def maxSkipNa : EF → EF → EF
  | nan, b => b
  | a, nan => a
  | a, b => if blt a b then b else a

/-- Round half to even on rationals (Python `round` tie behaviour). -/
def roundHalfEven (q : ℚ) : ℤ :=
  let f := ⌊q⌋
  let r := q - (f : ℚ)
  if r < 1 / 2 then f
  else if 1 / 2 < r then f + 1
  else if 2 ∣ f then f else f + 1

/-- Python `round(x, d)`: NaN and infinities pass through. -/
def roundTo (d : ℕ) : EF → EF
  | fin q => fin ((roundHalfEven (q * 10 ^ d) : ℚ) / 10 ^ d)
  | x => x

/-- `Series.diff()`: first entry NaN, then consecutive differences. -/
def diffList : List EF → List EF
  | [] => []
  | x :: rest => nan :: List.zipWith sub rest (x :: rest)

/-- `Series.shift(1)`: NaN in front, last entry dropped. -/
def shift1 : List EF → List EF
  | [] => []
  | x :: rest => nan :: (x :: rest).dropLast

/-- All-finite view of a list of floats: `some` of the rationals when no
entry is NaN or infinite, else `none`. -/
def finList : List EF → Option (List ℚ)
  | [] => some []
  | fin q :: rest => (finList rest).map (fun l => q :: l)
  | _ => none

/-- `Series.rolling(w).mean()` with the pandas default `min_periods = w`:
NaN while fewer than `w` observations are available or the window holds a
non-finite value, else the arithmetic mean of the window. -/
def rollingMean (w : ℕ) (xs : List EF) : List EF :=
  (List.range xs.length).map (fun i =>
    if i + 1 < w then nan
    else
      match finList ((xs.drop (i + 1 - w)).take w) with
      | none => nan
      | some qs => fin (qs.sum / (w : ℚ)))

/-- `Series.rolling(w, min_periods=w).min()`. -/
def rollingMin (w : ℕ) (xs : List EF) : List EF :=
  (List.range xs.length).map (fun i =>
    if i + 1 < w then nan
    else
      match finList ((xs.drop (i + 1 - w)).take w) with
      | none => nan
      | some [] => nan
      | some (q :: qs) => fin (qs.foldl min q))

/-- `Series.rolling(w, min_periods=w).max()`. -/
def rollingMax (w : ℕ) (xs : List EF) : List EF :=
  (List.range xs.length).map (fun i =>
    if i + 1 < w then nan
    else
      match finList ((xs.drop (i + 1 - w)).take w) with
      | none => nan
      | some [] => nan
      | some (q :: qs) => fin (qs.foldl max q))

/-- Floor approximation of the square root, exact on squares. It stands
in for IEEE `sqrt` inside `rolling.std`; no claim in this file depends on
the value of a finite standard deviation. -/
def ratSqrt (q : ℚ) : ℚ :=
  if q ≤ 0 then 0
  else (Nat.sqrt (q.num.toNat * q.den) : ℚ) / (q.den : ℚ)

/-- `Series.rolling(w).std()`: sample standard deviation (`ddof=1`) over
full, all-finite windows, NaN otherwise (also NaN for `w ≤ 1`). -/
def rollingStd (w : ℕ) (xs : List EF) : List EF :=
  (List.range xs.length).map (fun i =>
    if i + 1 < w then nan
    else
      match finList ((xs.drop (i + 1 - w)).take w) with
      | none => nan
      | some qs =>
          if w ≤ 1 then nan
          else
            let m := qs.sum / (w : ℚ)
            fin (ratSqrt ((qs.map (fun q => (q - m) ^ 2)).sum / ((w : ℚ) - 1))))

/-- One step of the pandas `ewm(adjust=False, ignore_na=False).mean()`
recurrence. State: current smoothed value (`nan` before the first
observation) and the accumulated old weight. -/
def ewmStep (a : ℚ) (st : EF × ℚ) (x : EF) : (EF × ℚ) × EF :=
  match st.1, x with
  | nan, fin v => ((fin v, st.2), fin v)
  | nan, pinf => ((pinf, st.2), pinf)
  | nan, ninf => ((ninf, st.2), ninf)
  | nan, nan => ((nan, st.2), nan)
  | avg, nan => ((avg, st.2 * (1 - a)), avg)
  | avg, v =>
      let ow := st.2 * (1 - a)
      let avg2 := if v = avg then avg
        else div (add (mul (fin ow) avg) (mul (fin a) v)) (fin (ow + a))
      ((avg2, 1), avg2)

/-- Tail recursion of the ewm scan. -/
def ewmGo (a : ℚ) : EF × ℚ → List EF → List EF
  | _, [] => []
  | st, x :: rest =>
      let r := ewmStep a st x
      r.2 :: ewmGo a r.1 rest

/-- `Series.ewm(..., adjust=False).mean()` with smoothing factor `a`. -/
def ewmMean (a : ℚ) (xs : List EF) : List EF := ewmGo a (nan, 1) xs

/-- Three-list pointwise combination (truncating like `zipWith`). -/
def zip3With (f : EF → EF → EF → EF) : List EF → List EF → List EF → List EF
  | x :: xs, y :: ys, z :: zs => f x y z :: zip3With f xs ys zs
  | _, _, _ => []

/-- Running cumulative sum from a given accumulator. -/
def cumsumGo : EF → List EF → List EF
  | _, [] => []
  | acc, x :: rest => add acc x :: cumsumGo (add acc x) rest

/-- `ndarray.cumsum()`. -/
def cumsum (xs : List EF) : List EF := cumsumGo (fin 0) xs

end EF

/-- A pandas DataFrame: named columns of float values, in insertion
order. -/
structure DF where
  cols : List (String × List EF)
deriving DecidableEq, Repr

namespace DF

/-- Column names in order (`df.columns`). -/
def names (df : DF) : List String := df.cols.map (fun c => c.1)

/-- `df[name]`; the empty column when the name is absent (the module only
reads columns it has validated or just written). -/
def getCol (df : DF) (name : String) : List EF :=
  match df.cols.lookup name with
  | some v => v
  | none => []

/-- `name in df.columns` (also row membership `name in df.iloc[-1]`). -/
def hasCol (df : DF) (name : String) : Bool := df.names.contains name

/-- `df[name] = values`: replace the column in place when present, else
append it, as pandas column assignment does. -/
def setCol (df : DF) (name : String) (v : List EF) : DF :=
  if df.hasCol name then
    ⟨df.cols.map (fun c => if c.1 = name then (name, v) else c)⟩
  else ⟨df.cols ++ [(name, v)]⟩

/-- `len(df)`: the common column length (frames are rectangular). -/
def len (df : DF) : ℕ :=
  match df.cols with
  | [] => 0
  | c :: _ => c.2.length

/-- Rectangularity: every column has length `len`. -/
def wf (df : DF) : Bool := df.cols.all (fun c => c.2.length = df.len)

/-- Value of a column at the last row (`df.iloc[-1][name]`). -/
def lastVal (df : DF) (name : String) : EF :=
  match (df.getCol name).getLast? with
  | some v => v
  | none => EF.nan

/-- `data.copy()`: value-identical fresh frame. -/
def copy (df : DF) : DF := df

end DF

namespace TechnicalAnalyzer

/-- `calculate_ma`: one simple moving average column per period, named
`MA{period}` (source default periods `[5, 10, 20, 60]`). -/
def calculate_ma (data : DF) (periods : List ℕ) : DF :=
  let df := data.copy
  periods.foldl
    (fun df p => df.setCol ("MA" ++ toString p) (EF.rollingMean p (df.getCol "close"))) df

/-- Smoothing factor of `ewm(span=s)`. -/
def emaAlpha (span : ℕ) : ℚ := 2 / ((span : ℚ) + 1)

/-- `calculate_ema`: exponential moving averages, `EMA{period}` columns
(source default periods `[5, 12, 26]`). -/
def calculate_ema (data : DF) (periods : List ℕ) : DF :=
  let df := data.copy
  periods.foldl
    (fun df p => df.setCol ("EMA" ++ toString p) (EF.ewmMean (emaAlpha p) (df.getCol "close"))) df

/-- The rolling average gain inside `calculate_rsi`:
`(delta.where(delta > 0, 0)).rolling(period).mean()`. -/
def rsiGain (close : List EF) (period : ℕ) : List EF :=
  EF.rollingMean period
    ((EF.diffList close).map (fun d => if EF.blt (EF.fin 0) d then d else EF.fin 0))

/-- The rolling average loss inside `calculate_rsi`:
`(-delta.where(delta < 0, 0)).rolling(period).mean()`. -/
def rsiLoss (close : List EF) (period : ℕ) : List EF :=
  EF.rollingMean period
    ((EF.diffList close).map (fun d => EF.neg (if EF.blt d (EF.fin 0) then d else EF.fin 0)))

/-- `calculate_rsi` (source default period 14): `RS = gain/loss`,
`RSI = 100 - 100/(1+RS)`. -/
def calculate_rsi (data : DF) (period : ℕ) : DF :=
  let df := data.copy
  let rs := List.zipWith EF.div (rsiGain (df.getCol "close") period)
    (rsiLoss (df.getCol "close") period)
  df.setCol "RSI"
    (rs.map (fun r => EF.sub (EF.fin 100) (EF.div (EF.fin 100) (EF.add (EF.fin 1) r))))

/-- `calculate_macd` (source defaults 12/26/9). -/
def calculate_macd (data : DF) (fast slow signal : ℕ) : DF :=
  let df := data.copy
  let exp1 := EF.ewmMean (emaAlpha fast) (df.getCol "close")
  let exp2 := EF.ewmMean (emaAlpha slow) (df.getCol "close")
  let df := df.setCol "MACD" (List.zipWith EF.sub exp1 exp2)
  let df := df.setCol "MACD_Signal" (EF.ewmMean (emaAlpha signal) (df.getCol "MACD"))
  let df := df.setCol "MACD_Histogram"
    (List.zipWith EF.sub (df.getCol "MACD") (df.getCol "MACD_Signal"))
  df

/-- `calculate_bollinger` (source defaults period 20, width 2.0). -/
def calculate_bollinger (data : DF) (period : ℕ) (stdDev : ℚ) : DF :=
  let df := data.copy
  let df := df.setCol "BOLL_MID" (EF.rollingMean period (df.getCol "close"))
  let df := df.setCol "BOLL_STD" (EF.rollingStd period (df.getCol "close"))
  let df := df.setCol "BOLL_UPPER"
    (List.zipWith EF.add (df.getCol "BOLL_MID")
      ((df.getCol "BOLL_STD").map (fun s => EF.mul s (EF.fin stdDev))))
  let df := df.setCol "BOLL_LOWER"
    (List.zipWith EF.sub (df.getCol "BOLL_MID")
      ((df.getCol "BOLL_STD").map (fun s => EF.mul s (EF.fin stdDev))))
  let df := df.setCol "BOLL_WIDTH"
    (List.zipWith EF.div
      (List.zipWith EF.sub (df.getCol "BOLL_UPPER") (df.getCol "BOLL_LOWER"))
      (df.getCol "BOLL_MID"))
  df

/-- `calculate_kdj` (source defaults n=9, m1=m2=3): RSV from the rolling
extrema, then two recursive smoothings and `J = 3K - 2D`. -/
def calculate_kdj (data : DF) (n m1 m2 : ℕ) : DF :=
  let df := data.copy
  let lowList := EF.rollingMin n (df.getCol "low")
  let highList := EF.rollingMax n (df.getCol "high")
  let rsv := EF.zip3With
    (fun c l h => EF.mul (EF.div (EF.sub c l) (EF.sub h l)) (EF.fin 100))
    (df.getCol "close") lowList highList
  let df := df.setCol "K" (EF.ewmMean (1 / (m1 : ℚ)) rsv)
  let df := df.setCol "D" (EF.ewmMean (1 / (m2 : ℚ)) (df.getCol "K"))
  let df := df.setCol "J"
    (List.zipWith EF.sub ((df.getCol "K").map (fun k => EF.mul (EF.fin 3) k))
      ((df.getCol "D").map (fun d => EF.mul (EF.fin 2) d)))
  df

/-- `calculate_volume_ma` (source default periods `[5, 10, 20]`). -/
def calculate_volume_ma (data : DF) (periods : List ℕ) : DF :=
  let df := data.copy
  periods.foldl
    (fun df p => df.setCol ("VOL_MA" ++ toString p) (EF.rollingMean p (df.getCol "volume"))) df

/-- `calculate_atr` (source default period 14). `np.max(ranges, axis=1)`
skips NaN entries, so the first row's TrueRange is `high - low`. -/
def calculate_atr (data : DF) (period : ℕ) : DF :=
  let df := data.copy
  let highLow := List.zipWith EF.sub (df.getCol "high") (df.getCol "low")
  let highClose := List.zipWith (fun h pc => EF.eabs (EF.sub h pc))
    (df.getCol "high") (EF.shift1 (df.getCol "close"))
  let lowClose := List.zipWith (fun l pc => EF.eabs (EF.sub l pc))
    (df.getCol "low") (EF.shift1 (df.getCol "close"))
  let trueRange := EF.zip3With
    (fun a b c => EF.maxSkipNa (EF.maxSkipNa a b) c) highLow highClose lowClose
  df.setCol "ATR" (EF.rollingMean period trueRange)

/-- `calculate_obv`: cumulative sum of signed volume (NaN comparisons are
false, so the first row contributes 0). -/
def calculate_obv (data : DF) : DF :=
  let df := data.copy
  let contrib := EF.zip3With
    (fun c pc v => if EF.blt pc c then v else if EF.blt c pc then EF.neg v else EF.fin 0)
    (df.getCol "close") (EF.shift1 (df.getCol "close")) (df.getCol "volume")
  df.setCol "OBV" (EF.cumsum contrib)

/-- The required input columns, in the order the source checks them. -/
def requiredCols : List String := ["open", "high", "low", "close", "volume"]

/-- First required column absent from the frame, if any. -/
def firstMissing (df : DF) : Option String :=
  requiredCols.find? (fun c => !(df.hasCol c))

/-- The indicator chain of `calculate_all_indicators` after validation:
each indicator applied in source order with its source defaults. -/
def enrichCore (data : DF) : DF :=
  let df := calculate_ma data [5, 10, 20, 60]
  let df := calculate_ema df [5, 12, 26]
  let df := calculate_rsi df 14
  let df := calculate_macd df 12 26 9
  let df := calculate_bollinger df 20 2
  let df := calculate_kdj df 9 3 3
  let df := calculate_volume_ma df [5, 10, 20]
  let df := calculate_atr df 14
  let df := calculate_obv df
  df

/-- `calculate_all_indicators`: validates the required columns (raising
`ValueError` on the first missing one), then applies every indicator with
its source defaults. -/
def calculate_all_indicators (data : DF) : Except String DF :=
  let df := data.copy
  match firstMissing df with
  | some c => Except.error ("缺少必要列: " ++ c)
  | none => Except.ok (enrichCore df)

end TechnicalAnalyzer

/-- A value of the signal-summary dict: a classification string or a
rounded numeric value. -/
inductive SigVal where
  | s : String → SigVal
  | v : EF → SigVal
deriving DecidableEq, Repr

namespace TechnicalAnalyzer

/-- Stable ascending insertion of a string (Python `sorted` order). -/
def insertStr (s : String) : List String → List String
  | [] => [s]
  | t :: rest => if strLt s t then s :: t :: rest else t :: insertStr s rest

/-- Python `sorted` on strings: stable ascending lexicographic sort. -/
def sortStrings (l : List String) : List String :=
  l.foldl (fun acc s => insertStr s acc) []

/-- The RSI block of `get_latest_signals`: present iff the `RSI` column
exists; NaN compares false on both thresholds, landing on the neutral
label. -/
def rsiPart (data : DF) : List (String × SigVal) :=
  if data.hasCol "RSI" then
    [("RSI", SigVal.s (if EF.blt (EF.fin 70) (data.lastVal "RSI") then "超买"
        else if EF.blt (data.lastVal "RSI") (EF.fin 30) then "超卖" else "中性")),
     ("RSI_VALUE", SigVal.v (EF.roundTo 2 (data.lastVal "RSI")))]
  else []

/-- The MACD block of `get_latest_signals`. -/
def macdPart (data : DF) : List (String × SigVal) :=
  if data.hasCol "MACD" && data.hasCol "MACD_Signal" then
    [("MACD", SigVal.s (if EF.blt (data.lastVal "MACD_Signal") (data.lastVal "MACD")
        then "多头" else "空头")),
     ("MACD_VALUE", SigVal.v (EF.roundTo 4 (data.lastVal "MACD"))),
     ("MACD_SIGNAL", SigVal.v (EF.roundTo 4 (data.lastVal "MACD_Signal")))]
  else []

/-- The moving-average-alignment block of `get_latest_signals`: the
first three MA-prefixed columns in ascending lexicographic name order. -/
def maPart (data : DF) : List (String × SigVal) :=
  let maCols := data.names.filter (fun s => strStarts "MA" s)
  if 3 ≤ maCols.length then
    let sortedC := (sortStrings maCols).take 3
    let v0 := data.lastVal (sortedC.getD 0 "")
    let v1 := data.lastVal (sortedC.getD 1 "")
    let v2 := data.lastVal (sortedC.getD 2 "")
    [("MA_TREND", SigVal.s (if EF.blt v1 v0 && EF.blt v2 v1 then "多头排列"
        else if EF.blt v0 v1 && EF.blt v1 v2 then "空头排列" else "震荡整理"))]
  else []

/-- The Bollinger block of `get_latest_signals`. -/
def bollPart (data : DF) : List (String × SigVal) :=
  if data.hasCol "BOLL_UPPER" && data.hasCol "BOLL_LOWER" then
    [("BOLLINGER", SigVal.s (
      if EF.blt (data.lastVal "BOLL_UPPER") (data.lastVal "close") then "突破上轨"
      else if EF.blt (data.lastVal "close") (data.lastVal "BOLL_LOWER") then "跌破下轨"
      else
        let pct := EF.div (EF.sub (data.lastVal "close") (data.lastVal "BOLL_LOWER"))
          (EF.sub (data.lastVal "BOLL_UPPER") (data.lastVal "BOLL_LOWER"))
        if EF.blt (EF.fin (8 / 10)) pct then "接近上轨"
        else if EF.blt pct (EF.fin (2 / 10)) then "接近下轨"
        else "中轨附近"))]
  else []

/-- The KDJ block of `get_latest_signals`. -/
def kdjPart (data : DF) : List (String × SigVal) :=
  if data.hasCol "J" then
    [("KDJ", SigVal.s (if EF.blt (EF.fin 100) (data.lastVal "J") then "超买区"
        else if EF.blt (data.lastVal "J") (EF.fin 0) then "超卖区" else "震荡区")),
     ("KDJ_J", SigVal.v (EF.roundTo 2 (data.lastVal "J")))]
  else []

/-- `get_latest_signals`: classification of the last row. Entries are
keyed on column presence (`'RSI' in latest` is row-index membership); the
insertion-ordered dict is a key-value list. -/
def get_latest_signals (data : DF) : List (String × SigVal) :=
  if data.len = 0 then []
  else rsiPart data ++ macdPart data ++ maPart data ++ bollPart data ++ kdjPart data

/-- Trailing `n` entries (`Series.tail(n)`). -/
def lastN (n : ℕ) (xs : List EF) : List EF := xs.drop (xs.length - n)

/-- `Series.mean()` with the pandas default `skipna=True`. -/
def meanSkipNa (xs : List EF) : EF :=
  let vals := xs.filter (fun x => !x.isNan)
  if vals.length = 0 then EF.nan
  else EF.div (vals.foldl EF.add (EF.fin 0)) (EF.fin ((vals.length : ℕ) : ℚ))

/-- `np.polyfit(x, y, 1)[0]` with `x = 0..len-1`, in exact arithmetic:
the least-squares slope `(n·Σxy − Σx·Σy) / (n·Σx² − (Σx)²)`. A NaN in
`y` propagates to NaN (claims only use all-finite inputs). -/
def polyfitSlope (ys : List EF) : EF :=
  let n : ℚ := (ys.length : ℚ)
  let xs : List ℚ := (List.range ys.length).map (fun i => (i : ℚ))
  let sx : ℚ := xs.sum
  let sxx : ℚ := (xs.map (fun x => x ^ 2)).sum
  let sy := ys.foldl EF.add (EF.fin 0)
  let sxy := (List.zipWith (fun x y => EF.mul (EF.fin x) y) xs ys).foldl EF.add (EF.fin 0)
  EF.div (EF.sub (EF.mul (EF.fin n) sxy) (EF.mul (EF.fin sx) sy))
    (EF.fin (n * sxx - sx ^ 2))

/-- `calculate_trend_strength`: refuses fewer than 20 rows, else fits the
trailing 20 closes and compares the latest close to their mean. -/
def calculate_trend_strength (data : DF) : String :=
  if data.len < 20 then "数据不足"
  else
    let recent := lastN 20 (data.getCol "close")
    let ma20 := meanSkipNa recent
    let latest := data.lastVal "close"
    let slope := polyfitSlope recent
    if EF.blt (EF.fin 0) slope && EF.blt ma20 latest then "强势上涨"
    else if EF.blt (EF.fin 0) slope then "温和上涨"
    else if EF.blt slope (EF.fin 0) && EF.blt latest ma20 then "强势下跌"
    else if EF.blt slope (EF.fin 0) then "温和下跌"
    else "横盘整理"

/-- The enriched frame on the success path of `calculate_all_indicators`
(the empty frame on the error path). -/
def enrichD (df : DF) : DF :=
  match calculate_all_indicators df with
  | Except.ok e => e
  | Except.error _ => ⟨[]⟩

end TechnicalAnalyzer

/-! Specification-side definitions, written from the claims' own words,
to be compared with the embedded source functions. -/

namespace SpecSide

/-- Moving-average alignment classification as the claim states it, on
the last-row values of MA10, MA20, MA5 in that order: strictly descending
is the bullish label, strictly ascending the bearish label, anything else
the choppy label. -/
def maAlignSpec (v10 v20 v5 : EF) : String :=
  if EF.blt v20 v10 && EF.blt v5 v20 then "多头排列"
  else if EF.blt v10 v20 && EF.blt v20 v5 then "空头排列"
  else "震荡整理"

/-- Textbook least-squares slope over `x = 0..len-1` on rationals. -/
def lsSlopeQ (ys : List ℚ) : ℚ :=
  let n : ℚ := (ys.length : ℚ)
  let xs : List ℚ := (List.range ys.length).map (fun i => (i : ℚ))
  (n * (List.zipWith (fun a b => a * b) xs ys).sum - xs.sum * ys.sum) /
    (n * (xs.map (fun x => x ^ 2)).sum - xs.sum ^ 2)

/-- Arithmetic mean on rationals. -/
def meanQ (ys : List ℚ) : ℚ := ys.sum / (ys.length : ℚ)

/-- Trend classification as the claim states it, from the slope sign and
the latest-close versus mean-close comparison. -/
def trendClassifySpec (slope latest mean : ℚ) : String :=
  if 0 < slope ∧ mean < latest then "强势上涨"
  else if 0 < slope then "温和上涨"
  else if slope < 0 ∧ latest < mean then "强势下跌"
  else if slope < 0 then "温和下跌"
  else "横盘整理"

/-- Per-row OBV contributions as the claim states them: the first row
contributes 0, later rows `±volume` by close-to-close comparison. -/
def obvContribs (prev : Option ℚ) : List ℚ → List ℚ → List ℚ
  | [], _ => []
  | _ :: _, [] => []
  | c :: cs, v :: vs =>
      (match prev with
       | none => 0
       | some p => if p < c then v else if c < p then -v else 0) :: obvContribs (some c) cs vs

/-- Running cumulative sum on rationals. -/
def cumsumQ : ℚ → List ℚ → List ℚ
  | _, [] => []
  | acc, x :: xs => (acc + x) :: cumsumQ (acc + x) xs

/-- The OBV column as the claim states it: the running cumulative sum of
the signed volumes. -/
def obvSpecList (cs vs : List ℚ) : List ℚ := cumsumQ 0 (obvContribs none cs vs)

/-- TrueRange as the code computes it on finite data: row 0 is
`high - low` (the NaN-involving candidates are skipped), later rows the
three-way maximum with the previous close. -/
def atrTR (prev : Option ℚ) : List ℚ → List ℚ → List ℚ → List ℚ
  | h :: hs, l :: ls, c :: cs =>
      (match prev with
       | none => h - l
       | some pc => max (max (h - l) |h - pc|) |l - pc|) :: atrTR (some c) hs ls cs
  | _, _, _ => []

end SpecSide

/-! A small object-store semantics for the mutation claims: frames live
at heap references, `data.copy()` allocates a fresh frame, and every
column assignment of an indicator function writes to the fresh frame
only (that is the shape of every `TechnicalAnalyzer` method: `df =
data.copy()` followed by in-place column writes on `df`, returning
`df`). -/

/-- Decidable equality on `Except`, so that results of
`calculate_all_indicators` can be compared computationally. -/
instance {ε α : Type} [DecidableEq ε] [DecidableEq α] : DecidableEq (Except ε α) :=
  fun a b =>
    match a, b with
    | Except.error e1, Except.error e2 =>
        if h : e1 = e2 then isTrue (by rw [h])
        else isFalse (by intro hh; cases hh; exact h rfl)
    | Except.ok a1, Except.ok a2 =>
        if h : a1 = a2 then isTrue (by rw [h])
        else isFalse (by intro hh; cases hh; exact h rfl)
    | Except.error _, Except.ok _ => isFalse (by intro hh; cases hh)
    | Except.ok _, Except.error _ => isFalse (by intro hh; cases hh)

/-- The heap: frames indexed by allocation order. -/
abbrev Heap := List DF

/-- Read the frame at a reference (empty frame when dangling). -/
def heapRead (h : Heap) (r : ℕ) : DF := List.getD h r ⟨[]⟩

/-- Allocate a fresh frame, returning the extended heap and its
reference. -/
def heapAlloc (h : Heap) (d : DF) : Heap × ℕ := (h ++ [d], List.length h)

/-- Overwrite the frame at a reference. -/
def heapWrite (h : Heap) (r : ℕ) (d : DF) : Heap := List.set h r d

namespace TechnicalAnalyzer

/-- The heap-level shape shared by every indicator method: allocate a
copy of the argument frame, apply the method's column writes to the copy
in place, return the copy's reference. -/
def runCopyThen (f : DF → DF) (h : Heap) (data : ℕ) : Heap × ℕ :=
  let p := heapAlloc h (heapRead h data)
  (heapWrite p.1 p.2 (f (heapRead p.1 p.2)), p.2)

/-- `calculate_ma` on the heap (source defaults). -/
def calculate_ma_st (h : Heap) (data : ℕ) : Heap × ℕ :=
  runCopyThen (fun d => calculate_ma d [5, 10, 20, 60]) h data

/-- `calculate_ema` on the heap (source defaults). -/
def calculate_ema_st (h : Heap) (data : ℕ) : Heap × ℕ :=
  runCopyThen (fun d => calculate_ema d [5, 12, 26]) h data

/-- `calculate_rsi` on the heap (source default). -/
def calculate_rsi_st (h : Heap) (data : ℕ) : Heap × ℕ :=
  runCopyThen (fun d => calculate_rsi d 14) h data

/-- `calculate_macd` on the heap (source defaults). -/
def calculate_macd_st (h : Heap) (data : ℕ) : Heap × ℕ :=
  runCopyThen (fun d => calculate_macd d 12 26 9) h data

/-- `calculate_bollinger` on the heap (source defaults). -/
def calculate_bollinger_st (h : Heap) (data : ℕ) : Heap × ℕ :=
  runCopyThen (fun d => calculate_bollinger d 20 2) h data

/-- `calculate_kdj` on the heap (source defaults). -/
def calculate_kdj_st (h : Heap) (data : ℕ) : Heap × ℕ :=
  runCopyThen (fun d => calculate_kdj d 9 3 3) h data

/-- `calculate_volume_ma` on the heap (source defaults). -/
def calculate_volume_ma_st (h : Heap) (data : ℕ) : Heap × ℕ :=
  runCopyThen (fun d => calculate_volume_ma d [5, 10, 20]) h data

/-- `calculate_atr` on the heap (source default). -/
def calculate_atr_st (h : Heap) (data : ℕ) : Heap × ℕ :=
  runCopyThen (fun d => calculate_atr d 14) h data

/-- `calculate_obv` on the heap. -/
def calculate_obv_st (h : Heap) (data : ℕ) : Heap × ℕ :=
  runCopyThen calculate_obv h data

/-- `calculate_all_indicators` on the heap: `df = data.copy()` first,
then validation, then the chained indicator methods (each of which
copies again, exactly as in the source). -/
def calculate_all_indicators_st (h : Heap) (data : ℕ) : Heap × Except String ℕ :=
  let p := heapAlloc h (heapRead h data)
  match firstMissing (heapRead p.1 p.2) with
  | some c => (p.1, Except.error ("缺少必要列: " ++ c))
  | none =>
      let p1 := calculate_ma_st p.1 p.2
      let p2 := calculate_ema_st p1.1 p1.2
      let p3 := calculate_rsi_st p2.1 p2.2
      let p4 := calculate_macd_st p3.1 p3.2
      let p5 := calculate_bollinger_st p4.1 p4.2
      let p6 := calculate_kdj_st p5.1 p5.2
      let p7 := calculate_volume_ma_st p6.1 p6.2
      let p8 := calculate_atr_st p7.1 p7.2
      let p9 := calculate_obv_st p8.1 p8.2
      (p9.1, Except.ok p9.2)

end TechnicalAnalyzer

/-- The moving-average-prefixed column names, in column order (the
`ma_cols` filter of `get_latest_signals`). -/
def DF.maFilter (df : DF) : List String := df.names.filter (fun s => strStarts "MA" s)

/-- Rectangularity together with a fixed row count and at least one
column. -/
def DFInv (N : ℕ) (df : DF) : Prop := df.wf = true ∧ df.len = N ∧ df.cols ≠ []

/-- Presence of the four price/volume columns the indicator chain
reads. -/
def HasReq (df : DF) : Prop :=
  df.hasCol "high" = true ∧ df.hasCol "low" = true ∧
    df.hasCol "close" = true ∧ df.hasCol "volume" = true

/-! Concrete frames used by witnesses and counterexamples. -/

/-- A finite column from rationals. -/
def colOf (qs : List ℚ) : List EF := qs.map EF.fin

/-- A constant finite column. -/
def rep (n : ℕ) (q : ℚ) : List EF := List.replicate n (EF.fin q)

/-- A flat OHLCV frame: `n` rows, every price 10, every volume 100. -/
def dfFlat (n : ℕ) : DF :=
  ⟨[("open", rep n 10), ("high", rep n 10), ("low", rep n 10),
    ("close", rep n 10), ("volume", rep n 100)]⟩

/-- The OBV example frame of the claim: closes `[10,11,10,10,12]`,
volumes `[100,200,150,150,300]`. -/
def dfObvEx : DF :=
  ⟨[("close", colOf [10, 11, 10, 10, 12]), ("volume", colOf [100, 200, 150, 150, 300])]⟩

/-- Fourteen strictly increasing closes. -/
def dfInc14 : DF := ⟨[("close", colOf [1, 2, 3, 4, 5, 6, 7, 8, 9, 10, 11, 12, 13, 14])]⟩

/-- Twenty strictly increasing closes. -/
def dfInc20 : DF := ⟨[("close", colOf ((List.range 20).map (fun i => (i : ℚ))))]⟩

/-- A one-column frame with an `RSI` column whose last value is NaN. -/
def dfRsiNan : DF := ⟨[("close", [EF.fin 1]), ("RSI", [EF.nan])]⟩

/-- A one-column frame with a `J` column whose last value is NaN. -/
def dfJNan : DF := ⟨[("close", [EF.fin 1]), ("J", [EF.nan])]⟩

/-- A frame missing every required column but `close`. -/
def dfMissing : DF := ⟨[("close", [EF.fin 1])]⟩

/-- The high/low/close part of a flat frame (inputs of
`calculate_kdj`). -/
def dfFlatHLC (n : ℕ) (p : ℚ) : DF :=
  ⟨[("high", rep n p), ("low", rep n p), ("close", rep n p)]⟩

/-! Helper lemmas: lengths and indexing of the series operations. -/

namespace EF

theorem length_rollingMean (w : ℕ) (xs : List EF) :
    (rollingMean w xs).length = xs.length := by
  simp [rollingMean]

theorem length_rollingMin (w : ℕ) (xs : List EF) :
    (rollingMin w xs).length = xs.length := by
  simp [rollingMin]

theorem length_rollingMax (w : ℕ) (xs : List EF) :
    (rollingMax w xs).length = xs.length := by
  simp [rollingMax]

theorem length_rollingStd (w : ℕ) (xs : List EF) :
    (rollingStd w xs).length = xs.length := by
  simp [rollingStd]

theorem length_ewmGo (a : ℚ) : ∀ (st : EF × ℚ) (xs : List EF),
    (ewmGo a st xs).length = xs.length
  | _, [] => rfl
  | st, x :: rest => by
      simp [ewmGo, length_ewmGo a _ rest]

theorem length_ewmMean (a : ℚ) (xs : List EF) :
    (ewmMean a xs).length = xs.length := length_ewmGo a _ xs

theorem length_zip3With (f : EF → EF → EF → EF) :
    ∀ (as bs cs : List EF),
      (zip3With f as bs cs).length = min as.length (min bs.length cs.length)
  | [], _, _ => by simp [zip3With]
  | _ :: _, [], _ => by simp [zip3With]
  | _ :: _, _ :: _, [] => by simp [zip3With]
  | a :: as, b :: bs, c :: cs => by
      simp [zip3With, length_zip3With f as bs cs]
      omega

theorem length_cumsumGo : ∀ (acc : EF) (xs : List EF),
    (cumsumGo acc xs).length = xs.length
  | _, [] => rfl
  | acc, x :: rest => by simp [cumsumGo, length_cumsumGo _ rest]

theorem length_cumsum (xs : List EF) : (cumsum xs).length = xs.length :=
  length_cumsumGo _ xs

theorem length_diffList : ∀ xs : List EF, (diffList xs).length = xs.length
  | [] => rfl
  | x :: rest => by simp [diffList]

theorem length_shift1 : ∀ xs : List EF, (shift1 xs).length = xs.length
  | [] => rfl
  | x :: rest => by simp [shift1]

theorem getElem?_zipWith (f : EF → EF → EF) :
    ∀ (as bs : List EF) (i : ℕ),
      (List.zipWith f as bs)[i]? =
        (as[i]?).bind (fun a => (bs[i]?).map (fun b => f a b))
  | [], _, _ => by simp
  | _ :: _, [], _ => by simp
  | a :: as, b :: bs, 0 => by simp
  | a :: as, b :: bs, i + 1 => by
      simpa using getElem?_zipWith f as bs i

theorem getElem?_zip3With (f : EF → EF → EF → EF) :
    ∀ (as bs cs : List EF) (i : ℕ),
      (zip3With f as bs cs)[i]? =
        (as[i]?).bind (fun a => (bs[i]?).bind (fun b =>
          (cs[i]?).map (fun c => f a b c)))
  | [], _, _, _ => by simp [zip3With]
  | _ :: _, [], _, _ => by simp [zip3With]
  | _ :: _, _ :: _, [], _ => by simp [zip3With]
  | a :: as, b :: bs, c :: cs, 0 => by simp [zip3With]
  | a :: as, b :: bs, c :: cs, i + 1 => by
      simpa [zip3With] using getElem?_zip3With f as bs cs i

theorem rollingMean_getElem? (w : ℕ) (xs : List EF) (i : ℕ) (h : i < xs.length) :
    (rollingMean w xs)[i]? = some (
      if i + 1 < w then nan
      else
        match finList ((xs.drop (i + 1 - w)).take w) with
        | none => nan
        | some qs => fin (qs.sum / (w : ℚ))) := by
  rw [rollingMean, List.getElem?_map, List.getElem?_range h]
  rfl

theorem rollingMin_getElem? (w : ℕ) (xs : List EF) (i : ℕ) (h : i < xs.length) :
    (rollingMin w xs)[i]? = some (
      if i + 1 < w then nan
      else
        match finList ((xs.drop (i + 1 - w)).take w) with
        | none => nan
        | some [] => nan
        | some (q :: qs) => fin (qs.foldl min q)) := by
  rw [rollingMin, List.getElem?_map, List.getElem?_range h]
  rfl

theorem rollingMax_getElem? (w : ℕ) (xs : List EF) (i : ℕ) (h : i < xs.length) :
    (rollingMax w xs)[i]? = some (
      if i + 1 < w then nan
      else
        match finList ((xs.drop (i + 1 - w)).take w) with
        | none => nan
        | some [] => nan
        | some (q :: qs) => fin (qs.foldl max q)) := by
  rw [rollingMax, List.getElem?_map, List.getElem?_range h]
  rfl

theorem finList_map_fin : ∀ l : List ℚ, finList (l.map fin) = some l
  | [] => rfl
  | q :: rest => by simp [finList, finList_map_fin rest]

theorem add_fin (a b : ℚ) : add (fin a) (fin b) = fin (a + b) := rfl

theorem sub_fin (a b : ℚ) : sub (fin a) (fin b) = fin (a - b) := by
  simp [sub, add, neg, sub_eq_add_neg]

theorem mul_fin (a b : ℚ) : mul (fin a) (fin b) = fin (a * b) := rfl

theorem maxSkipNa_fin_fin (a b : ℚ) :
    maxSkipNa (fin a) (fin b) = fin (max a b) := by
  rcases le_or_lt b a with h | h
  · simp [maxSkipNa, blt, not_lt.2 h, max_eq_left h]
  · simp [maxSkipNa, blt, h, max_eq_right h.le]

theorem foldl_add_fin : ∀ (l : List ℚ) (a : ℚ),
    (l.map fin).foldl add (fin a) = fin (a + l.sum)
  | [], a => by simp
  | q :: rest, a => by
      rw [List.map_cons, List.foldl_cons, add_fin, foldl_add_fin rest (a + q),
        List.sum_cons, add_assoc]

theorem zipWith_fin_lift (f : EF → EF → EF) (g : ℚ → ℚ → ℚ)
    (hfg : ∀ a b, f (fin a) (fin b) = fin (g a b)) :
    ∀ as bs : List ℚ,
      List.zipWith f (as.map fin) (bs.map fin) = (List.zipWith g as bs).map fin
  | [], _ => by simp
  | _ :: _, [] => by simp
  | a :: as, b :: bs => by
      simp [hfg, zipWith_fin_lift f g hfg as bs]

end EF

/-! Helper lemmas: the DataFrame model. -/

namespace DF

theorem lookup_append {β : Type} : ∀ (l1 l2 : List (String × β)) (k : String),
    (l1 ++ l2).lookup k = match l1.lookup k with
      | some v => some v
      | none => l2.lookup k
  | [], _, _ => rfl
  | (a, w) :: rest, l2, k => by
      by_cases h : k = a
      · simp [List.lookup, h]
      · simp only [List.cons_append, List.lookup, beq_eq_false_iff_ne.2 h]
        exact lookup_append rest l2 k

theorem lookup_append_none {β : Type} {l1 : List (String × β)} {k : String}
    (h : l1.lookup k = none) (l2 : List (String × β)) :
    (l1 ++ l2).lookup k = l2.lookup k := by
  rw [lookup_append, h]

theorem lookup_append_some {β : Type} {l1 : List (String × β)} {k : String}
    {v : β} (h : l1.lookup k = some v) (l2 : List (String × β)) :
    (l1 ++ l2).lookup k = some v := by
  rw [lookup_append, h]

theorem lookup_isSome_eq_contains : ∀ (l : List (String × List EF)) (k : String),
    (l.lookup k).isSome = (l.map Prod.fst).contains k
  | [], _ => rfl
  | (a, w) :: rest, k => by
      by_cases h : k = a
      · simp [List.lookup, h]
      · simp only [List.lookup, beq_eq_false_iff_ne.2 h, List.map_cons,
          List.contains_cons, Bool.false_or]
        exact lookup_isSome_eq_contains rest k

theorem lookup_mem : ∀ (l : List (String × List EF)) (k : String) (v : List EF),
    l.lookup k = some v → (k, v) ∈ l
  | [], _, _ => by simp [List.lookup]
  | (a, w) :: rest, k, v => by
      by_cases h : k = a
      · simp [List.lookup, h]
        intro hv
        exact Or.inl hv.symm
      · simp only [List.lookup, beq_eq_false_iff_ne.2 h, List.mem_cons]
        intro hv
        exact Or.inr (lookup_mem rest k v hv)

theorem hasCol_eq_lookup_isSome (df : DF) (k : String) :
    df.hasCol k = (df.cols.lookup k).isSome := by
  rw [hasCol, names, lookup_isSome_eq_contains]

theorem getCol_length_of_wf {df : DF} {k : String}
    (hw : df.wf = true) (hc : df.hasCol k = true) :
    (df.getCol k).length = df.len := by
  rw [hasCol_eq_lookup_isSome] at hc
  obtain ⟨v, hv⟩ := Option.isSome_iff_exists.1 hc
  have hm := lookup_mem _ _ _ hv
  rw [getCol, hv]
  have := List.all_eq_true.1 hw _ hm
  exact of_decide_eq_true this

theorem lookup_replace_self : ∀ (l : List (String × List EF)) (n : String) (v : List EF),
    (l.map (fun c => if c.1 = n then (n, v) else c)).lookup n =
      match l.lookup n with
      | some _ => some v
      | none => none
  | [], _, _ => rfl
  | (c1, c2) :: rest, n, v => by
      by_cases hc : c1 = n
      · subst hc
        rw [List.map_cons, if_pos rfl, List.lookup_cons_self, List.lookup_cons_self]
      · have hb : (n == c1) = false := beq_eq_false_iff_ne.2 (Ne.symm hc)
        simp only [List.map_cons, if_neg hc, List.lookup_cons, hb]
        exact lookup_replace_self rest n v

theorem lookup_replace_ne : ∀ (l : List (String × List EF)) (n m : String) (v : List EF),
    m ≠ n →
    (l.map (fun c => if c.1 = n then (n, v) else c)).lookup m = l.lookup m
  | [], _, _, _, _ => rfl
  | (c1, c2) :: rest, n, m, v, h => by
      by_cases hc : c1 = n
      · have hb : (m == n) = false := beq_eq_false_iff_ne.2 h
        have hb2 : (m == c1) = false := beq_eq_false_iff_ne.2 (hc ▸ h)
        simp only [List.map_cons, if_pos hc, List.lookup_cons, hb, hb2]
        exact lookup_replace_ne rest n m v h
      · simp only [List.map_cons, if_neg hc, List.lookup_cons]
        cases m == c1
        · exact lookup_replace_ne rest n m v h
        · rfl

theorem getCol_setCol_self (df : DF) (n : String) (v : List EF) :
    (df.setCol n v).getCol n = v := by
  rw [setCol]
  by_cases h : df.hasCol n
  · rw [if_pos h, getCol]
    show (match (df.cols.map (fun c => if c.1 = n then (n, v) else c)).lookup n with
      | some w => w
      | none => []) = v
    rw [lookup_replace_self]
    rw [hasCol_eq_lookup_isSome] at h
    obtain ⟨w, hw⟩ := Option.isSome_iff_exists.1 h
    rw [hw]
  · rw [if_neg h, getCol]
    show (match (df.cols ++ [(n, v)]).lookup n with
      | some w => w
      | none => []) = v
    rw [lookup_append]
    have hn : df.cols.lookup n = none := by
      rw [hasCol_eq_lookup_isSome] at h
      exact Option.not_isSome_iff_eq_none.1 (by simpa using h)
    simp [hn]

theorem getCol_setCol_ne (df : DF) (n m : String) (v : List EF) (h : m ≠ n) :
    (df.setCol n v).getCol m = df.getCol m := by
  rw [setCol]
  by_cases hn : df.hasCol n
  · rw [if_pos hn, getCol, getCol]
    show (match (df.cols.map (fun c => if c.1 = n then (n, v) else c)).lookup m with
      | some w => w
      | none => []) = _
    rw [lookup_replace_ne _ _ _ _ h]
  · rw [if_neg hn, getCol, getCol]
    show (match (df.cols ++ [(n, v)]).lookup m with
      | some w => w
      | none => []) = _
    rw [lookup_append]
    cases hl : df.cols.lookup m
    · have hb : (m == n) = false := beq_eq_false_iff_ne.2 h
      simp [List.lookup_cons, hb]
    · simp

theorem names_setCol (df : DF) (n : String) (v : List EF) :
    (df.setCol n v).names = if df.hasCol n then df.names else df.names ++ [n] := by
  rw [setCol]
  by_cases h : df.hasCol n
  · rw [if_pos h, if_pos h, names, names]
    show List.map _ (List.map _ _) = _
    rw [List.map_map]
    apply List.map_congr_left
    intro c _
    by_cases hc : c.1 = n
    · simp [hc]
    · simp [hc]
  · rw [if_neg h, if_neg h, names, names]
    simp

theorem hasCol_setCol (df : DF) (n m : String) (v : List EF) :
    (df.setCol n v).hasCol m = (df.hasCol m || m == n) := by
  rw [hasCol, names_setCol]
  by_cases hm : m = n
  · subst hm
    rw [beq_self_eq_true, Bool.or_true]
    by_cases h : df.hasCol m
    · rw [if_pos h]
      rw [hasCol] at h
      exact h
    · rw [if_neg h]
      simp
  · rw [beq_eq_false_iff_ne.2 hm, Bool.or_false]
    by_cases h : df.hasCol n
    · rw [if_pos h]
      rfl
    · rw [if_neg h, hasCol]
      simp [hm]

theorem hasCol_setCol_of {df : DF} {m : String} (n : String) (v : List EF)
    (h : df.hasCol m = true) : (df.setCol n v).hasCol m = true := by
  rw [hasCol_setCol, h, Bool.true_or]

theorem DFInv_setCol {N : ℕ} {df : DF} (h : DFInv N df) (n : String) (v : List EF)
    (hv : v.length = N) : DFInv N (df.setCol n v) := by
  obtain ⟨hw, hlen, hne⟩ := h
  rw [setCol]
  by_cases hc : df.hasCol n
  · rw [if_pos hc]
    obtain ⟨c0, rest, hcols⟩ := List.exists_cons_of_ne_nil hne
    have hlen2 : ∀ c ∈ df.cols, (if c.1 = n then (n, v) else c).2.length = N := by
      intro c hmem
      by_cases h1 : c.1 = n
      · simpa [h1] using hv
      · have := List.all_eq_true.1 hw _ hmem
        simpa [h1, hlen] using of_decide_eq_true this
    have hlennew : DF.len ⟨df.cols.map (fun c => if c.1 = n then (n, v) else c)⟩ = N := by
      rw [len, hcols, List.map_cons]
      exact hlen2 c0 (hcols ▸ List.mem_cons_self c0 rest)
    refine ⟨?_, hlennew, by simp [hcols]⟩
    rw [wf, List.all_eq_true]
    intro c hmem
    obtain ⟨c1, hc1, hc1e⟩ := List.mem_map.1 hmem
    exact decide_eq_true (by rw [hlennew, ← hc1e]; exact hlen2 c1 hc1)
  · rw [if_neg hc]
    obtain ⟨c0, rest, hcols⟩ := List.exists_cons_of_ne_nil hne
    have hlennew : DF.len ⟨df.cols ++ [(n, v)]⟩ = N := by
      rw [len, hcols, List.cons_append]
      have := List.all_eq_true.1 hw _ (hcols ▸ List.mem_cons_self c0 rest)
      simpa [hlen] using of_decide_eq_true this
    refine ⟨?_, hlennew, by simp [hcols]⟩
    rw [wf, List.all_eq_true]
    intro c hmem
    rcases List.mem_append.1 hmem with h1 | h1
    · have := List.all_eq_true.1 hw _ h1
      exact decide_eq_true (by rw [hlennew]; simpa [hlen] using of_decide_eq_true this)
    · simp at h1
      exact decide_eq_true (by rw [hlennew, h1]; exact hv)

theorem contains_filter_of_pred (p : String → Bool) (n : String) (hp : p n = true) :
    ∀ l : List String, (l.filter p).contains n = l.contains n
  | [] => rfl
  | a :: rest => by
      by_cases hpa : p a = true
      · simp only [List.filter_cons, hpa, if_true, List.contains_cons]
        rw [contains_filter_of_pred p n hp rest]
      · have hna : (n == a) = false := by
          refine beq_eq_false_iff_ne.2 ?_
          intro hna
          rw [← hna] at hpa
          exact hpa hp
        simp only [List.filter_cons, hpa, if_false, List.contains_cons, hna,
          Bool.false_or]
        exact contains_filter_of_pred p n hp rest

theorem maFilter_setCol_not_ma (df : DF) (n : String) (v : List EF)
    (h : strStarts "MA" n = false) : (df.setCol n v).maFilter = df.maFilter := by
  rw [maFilter, maFilter, names_setCol]
  by_cases hc : df.hasCol n
  · rw [if_pos hc]
  · rw [if_neg hc, List.filter_append]
    simp [h]

theorem maFilter_setCol_fresh (df : DF) (n : String) (v : List EF)
    (hma : strStarts "MA" n = true) (h : df.hasCol n = false) :
    (df.setCol n v).maFilter = df.maFilter ++ [n] := by
  rw [maFilter, maFilter, names_setCol, if_neg (by rw [h]; exact Bool.false_ne_true),
    List.filter_append]
  simp [hma]

theorem hasCol_eq_maFilter_contains (df : DF) (n : String)
    (hma : strStarts "MA" n = true) :
    df.hasCol n = df.maFilter.contains n := by
  rw [hasCol, maFilter, contains_filter_of_pred _ _ hma]

end DF


/-! Helper lemmas: each indicator function rewritten as nested column
assignments whose values read only the input frame. -/

section EvalForm

open TechnicalAnalyzer

theorem hasCol_setCol_self (df : DF) (n : String) (v : List EF) :
    (df.setCol n v).hasCol n = true := by
  rw [DF.hasCol_setCol, beq_self_eq_true, Bool.or_true]

theorem calculate_ma_eval (df : DF) :
    calculate_ma df [5, 10, 20, 60] =
      (((df.setCol "MA5" (EF.rollingMean 5 (df.getCol "close"))).setCol
          "MA10" (EF.rollingMean 10 (df.getCol "close"))).setCol
          "MA20" (EF.rollingMean 20 (df.getCol "close"))).setCol
          "MA60" (EF.rollingMean 60 (df.getCol "close")) := by
  simp only [calculate_ma, DF.copy, List.foldl_cons, List.foldl_nil]
  rw [show ("MA" ++ toString 5 : String) = "MA5" by decide,
    show ("MA" ++ toString 10 : String) = "MA10" by decide,
    show ("MA" ++ toString 20 : String) = "MA20" by decide,
    show ("MA" ++ toString 60 : String) = "MA60" by decide]
  simp [DF.getCol_setCol_ne]

theorem calculate_ema_eval (df : DF) :
    calculate_ema df [5, 12, 26] =
      ((df.setCol "EMA5" (EF.ewmMean (emaAlpha 5) (df.getCol "close"))).setCol
          "EMA12" (EF.ewmMean (emaAlpha 12) (df.getCol "close"))).setCol
          "EMA26" (EF.ewmMean (emaAlpha 26) (df.getCol "close")) := by
  simp only [calculate_ema, DF.copy, List.foldl_cons, List.foldl_nil]
  rw [show ("EMA" ++ toString 5 : String) = "EMA5" by decide,
    show ("EMA" ++ toString 12 : String) = "EMA12" by decide,
    show ("EMA" ++ toString 26 : String) = "EMA26" by decide]
  simp [DF.getCol_setCol_ne]

theorem calculate_rsi_eval (df : DF) (period : ℕ) :
    calculate_rsi df period =
      df.setCol "RSI"
        ((List.zipWith EF.div (rsiGain (df.getCol "close") period)
            (rsiLoss (df.getCol "close") period)).map
          (fun r => EF.sub (EF.fin 100) (EF.div (EF.fin 100) (EF.add (EF.fin 1) r)))) := by
  rw [calculate_rsi]
  rfl

theorem calculate_macd_eval (df : DF) :
    calculate_macd df 12 26 9 =
      ((df.setCol "MACD" (List.zipWith EF.sub
          (EF.ewmMean (emaAlpha 12) (df.getCol "close"))
          (EF.ewmMean (emaAlpha 26) (df.getCol "close")))).setCol
        "MACD_Signal" (EF.ewmMean (emaAlpha 9) (List.zipWith EF.sub
          (EF.ewmMean (emaAlpha 12) (df.getCol "close"))
          (EF.ewmMean (emaAlpha 26) (df.getCol "close"))))).setCol
        "MACD_Histogram" (List.zipWith EF.sub
          (List.zipWith EF.sub
            (EF.ewmMean (emaAlpha 12) (df.getCol "close"))
            (EF.ewmMean (emaAlpha 26) (df.getCol "close")))
          (EF.ewmMean (emaAlpha 9) (List.zipWith EF.sub
            (EF.ewmMean (emaAlpha 12) (df.getCol "close"))
            (EF.ewmMean (emaAlpha 26) (df.getCol "close"))))) := by
  simp only [calculate_macd, DF.copy]
  simp [DF.getCol_setCol_ne, DF.getCol_setCol_self]

theorem calculate_bollinger_eval (df : DF) :
    calculate_bollinger df 20 2 =
      ((((df.setCol "BOLL_MID" (EF.rollingMean 20 (df.getCol "close"))).setCol
          "BOLL_STD" (EF.rollingStd 20 (df.getCol "close"))).setCol
          "BOLL_UPPER" (List.zipWith EF.add (EF.rollingMean 20 (df.getCol "close"))
            ((EF.rollingStd 20 (df.getCol "close")).map
              (fun s => EF.mul s (EF.fin 2))))).setCol
          "BOLL_LOWER" (List.zipWith EF.sub (EF.rollingMean 20 (df.getCol "close"))
            ((EF.rollingStd 20 (df.getCol "close")).map
              (fun s => EF.mul s (EF.fin 2))))).setCol
          "BOLL_WIDTH" (List.zipWith EF.div
            (List.zipWith EF.sub
              (List.zipWith EF.add (EF.rollingMean 20 (df.getCol "close"))
                ((EF.rollingStd 20 (df.getCol "close")).map
                  (fun s => EF.mul s (EF.fin 2))))
              (List.zipWith EF.sub (EF.rollingMean 20 (df.getCol "close"))
                ((EF.rollingStd 20 (df.getCol "close")).map
                  (fun s => EF.mul s (EF.fin 2)))))
            (EF.rollingMean 20 (df.getCol "close"))) := by
  simp only [calculate_bollinger, DF.copy]
  simp [DF.getCol_setCol_ne, DF.getCol_setCol_self]

theorem calculate_kdj_eval (df : DF) :
    calculate_kdj df 9 3 3 =
      ((df.setCol "K" (EF.ewmMean (1 / 3)
          (EF.zip3With (fun c l h => EF.mul (EF.div (EF.sub c l) (EF.sub h l)) (EF.fin 100))
            (df.getCol "close") (EF.rollingMin 9 (df.getCol "low"))
            (EF.rollingMax 9 (df.getCol "high"))))).setCol
        "D" (EF.ewmMean (1 / 3) (EF.ewmMean (1 / 3)
          (EF.zip3With (fun c l h => EF.mul (EF.div (EF.sub c l) (EF.sub h l)) (EF.fin 100))
            (df.getCol "close") (EF.rollingMin 9 (df.getCol "low"))
            (EF.rollingMax 9 (df.getCol "high")))))).setCol
        "J" (List.zipWith EF.sub
          ((EF.ewmMean (1 / 3)
            (EF.zip3With (fun c l h => EF.mul (EF.div (EF.sub c l) (EF.sub h l)) (EF.fin 100))
              (df.getCol "close") (EF.rollingMin 9 (df.getCol "low"))
              (EF.rollingMax 9 (df.getCol "high")))).map (fun k => EF.mul (EF.fin 3) k))
          ((EF.ewmMean (1 / 3) (EF.ewmMean (1 / 3)
            (EF.zip3With (fun c l h => EF.mul (EF.div (EF.sub c l) (EF.sub h l)) (EF.fin 100))
              (df.getCol "close") (EF.rollingMin 9 (df.getCol "low"))
              (EF.rollingMax 9 (df.getCol "high"))))).map (fun d => EF.mul (EF.fin 2) d))) := by
  simp only [calculate_kdj, DF.copy]
  rw [DF.getCol_setCol_self]
  rw [DF.getCol_setCol_ne _ _ _ _ (by decide : ("K" : String) ≠ "D"), DF.getCol_setCol_self,
    DF.getCol_setCol_self]
  norm_num

theorem calculate_volume_ma_eval (df : DF) :
    calculate_volume_ma df [5, 10, 20] =
      ((df.setCol "VOL_MA5" (EF.rollingMean 5 (df.getCol "volume"))).setCol
          "VOL_MA10" (EF.rollingMean 10 (df.getCol "volume"))).setCol
          "VOL_MA20" (EF.rollingMean 20 (df.getCol "volume")) := by
  simp only [calculate_volume_ma, DF.copy, List.foldl_cons, List.foldl_nil]
  rw [show ("VOL_MA" ++ toString 5 : String) = "VOL_MA5" by decide,
    show ("VOL_MA" ++ toString 10 : String) = "VOL_MA10" by decide,
    show ("VOL_MA" ++ toString 20 : String) = "VOL_MA20" by decide]
  simp [DF.getCol_setCol_ne]

theorem calculate_atr_eval (df : DF) (period : ℕ) :
    calculate_atr df period =
      df.setCol "ATR" (EF.rollingMean period
        (EF.zip3With (fun a b c => EF.maxSkipNa (EF.maxSkipNa a b) c)
          (List.zipWith EF.sub (df.getCol "high") (df.getCol "low"))
          (List.zipWith (fun h pc => EF.eabs (EF.sub h pc))
            (df.getCol "high") (EF.shift1 (df.getCol "close")))
          (List.zipWith (fun l pc => EF.eabs (EF.sub l pc))
            (df.getCol "low") (EF.shift1 (df.getCol "close"))))) := by
  rw [calculate_atr]
  rfl

theorem calculate_obv_eval (df : DF) :
    calculate_obv df =
      df.setCol "OBV" (EF.cumsum (EF.zip3With
        (fun c pc v => if EF.blt pc c then v else if EF.blt c pc then EF.neg v else EF.fin 0)
        (df.getCol "close") (EF.shift1 (df.getCol "close")) (df.getCol "volume"))) := by
  rw [calculate_obv]
  rfl

end EvalForm

/-! Helper lemmas: row count, rectangularity and required columns are
preserved by every indicator function. -/

section InvChain

open TechnicalAnalyzer

theorem good_setCol_of_len {N : ℕ} {df : DF} (h : DFInv N df) (hr : HasReq df)
    (n : String) (v : List EF) (hv : v.length = N) :
    DFInv N (df.setCol n v) ∧ HasReq (df.setCol n v) :=
  ⟨DF.DFInv_setCol h n v hv,
   ⟨DF.hasCol_setCol_of _ _ hr.1, DF.hasCol_setCol_of _ _ hr.2.1,
    DF.hasCol_setCol_of _ _ hr.2.2.1, DF.hasCol_setCol_of _ _ hr.2.2.2⟩⟩

theorem getCol_len_close {N : ℕ} {df : DF} (h : DFInv N df) (hr : HasReq df) :
    (df.getCol "close").length = N :=
  (DF.getCol_length_of_wf h.1 hr.2.2.1).trans h.2.1

theorem getCol_len_high {N : ℕ} {df : DF} (h : DFInv N df) (hr : HasReq df) :
    (df.getCol "high").length = N :=
  (DF.getCol_length_of_wf h.1 hr.1).trans h.2.1

theorem getCol_len_low {N : ℕ} {df : DF} (h : DFInv N df) (hr : HasReq df) :
    (df.getCol "low").length = N :=
  (DF.getCol_length_of_wf h.1 hr.2.1).trans h.2.1

theorem getCol_len_volume {N : ℕ} {df : DF} (h : DFInv N df) (hr : HasReq df) :
    (df.getCol "volume").length = N :=
  (DF.getCol_length_of_wf h.1 hr.2.2.2).trans h.2.1

theorem good_calculate_ma {N : ℕ} {df : DF} (h : DFInv N df) (hr : HasReq df) :
    DFInv N (calculate_ma df [5, 10, 20, 60]) ∧
      HasReq (calculate_ma df [5, 10, 20, 60]) := by
  rw [calculate_ma_eval]
  have hc := getCol_len_close h hr
  have g1 := good_setCol_of_len h hr "MA5" _ ((EF.length_rollingMean 5 _).trans hc)
  have g2 := good_setCol_of_len g1.1 g1.2 "MA10" _ ((EF.length_rollingMean 10 _).trans hc)
  have g3 := good_setCol_of_len g2.1 g2.2 "MA20" _ ((EF.length_rollingMean 20 _).trans hc)
  exact good_setCol_of_len g3.1 g3.2 "MA60" _ ((EF.length_rollingMean 60 _).trans hc)

theorem good_calculate_ema {N : ℕ} {df : DF} (h : DFInv N df) (hr : HasReq df) :
    DFInv N (calculate_ema df [5, 12, 26]) ∧ HasReq (calculate_ema df [5, 12, 26]) := by
  rw [calculate_ema_eval]
  have hc := getCol_len_close h hr
  have g1 := good_setCol_of_len h hr "EMA5" _
    ((EF.length_ewmMean (emaAlpha 5) _).trans hc)
  have g2 := good_setCol_of_len g1.1 g1.2 "EMA12" _
    ((EF.length_ewmMean (emaAlpha 12) _).trans hc)
  exact good_setCol_of_len g2.1 g2.2 "EMA26" _
    ((EF.length_ewmMean (emaAlpha 26) _).trans hc)

theorem good_calculate_rsi {N : ℕ} {df : DF} (h : DFInv N df) (hr : HasReq df)
    (period : ℕ) :
    DFInv N (calculate_rsi df period) ∧ HasReq (calculate_rsi df period) := by
  rw [calculate_rsi_eval]
  have hc := getCol_len_close h hr
  refine good_setCol_of_len h hr "RSI" _ ?_
  simp [rsiGain, rsiLoss, EF.length_rollingMean, EF.length_diffList, hc]

theorem good_calculate_macd {N : ℕ} {df : DF} (h : DFInv N df) (hr : HasReq df) :
    DFInv N (calculate_macd df 12 26 9) ∧ HasReq (calculate_macd df 12 26 9) := by
  rw [calculate_macd_eval]
  have hc := getCol_len_close h hr
  have l1 : (List.zipWith EF.sub (EF.ewmMean (emaAlpha 12) (df.getCol "close"))
      (EF.ewmMean (emaAlpha 26) (df.getCol "close"))).length = N := by
    simp [EF.length_ewmMean, hc]
  have g1 := good_setCol_of_len h hr "MACD" _ l1
  have g2 := good_setCol_of_len g1.1 g1.2 "MACD_Signal" _
    ((EF.length_ewmMean (emaAlpha 9) _).trans l1)
  refine good_setCol_of_len g2.1 g2.2 "MACD_Histogram" _ ?_
  simp [EF.length_ewmMean, hc]

theorem good_calculate_bollinger {N : ℕ} {df : DF} (h : DFInv N df) (hr : HasReq df) :
    DFInv N (calculate_bollinger df 20 2) ∧ HasReq (calculate_bollinger df 20 2) := by
  rw [calculate_bollinger_eval]
  have hc := getCol_len_close h hr
  have g1 := good_setCol_of_len h hr "BOLL_MID" _ ((EF.length_rollingMean 20 _).trans hc)
  have g2 := good_setCol_of_len g1.1 g1.2 "BOLL_STD" _
    ((EF.length_rollingStd 20 _).trans hc)
  have g3 := good_setCol_of_len g2.1 g2.2 "BOLL_UPPER"
    (List.zipWith EF.add (EF.rollingMean 20 (df.getCol "close"))
      ((EF.rollingStd 20 (df.getCol "close")).map (fun s => EF.mul s (EF.fin 2))))
    (by simp [EF.length_rollingMean, EF.length_rollingStd, hc])
  have g4 := good_setCol_of_len g3.1 g3.2 "BOLL_LOWER"
    (List.zipWith EF.sub (EF.rollingMean 20 (df.getCol "close"))
      ((EF.rollingStd 20 (df.getCol "close")).map (fun s => EF.mul s (EF.fin 2))))
    (by simp [EF.length_rollingMean, EF.length_rollingStd, hc])
  refine good_setCol_of_len g4.1 g4.2 "BOLL_WIDTH" _ ?_
  simp [EF.length_rollingMean, EF.length_rollingStd, hc]

theorem good_calculate_kdj {N : ℕ} {df : DF} (h : DFInv N df) (hr : HasReq df) :
    DFInv N (calculate_kdj df 9 3 3) ∧ HasReq (calculate_kdj df 9 3 3) := by
  rw [calculate_kdj_eval]
  have hc := getCol_len_close h hr
  have hh := getCol_len_high h hr
  have hl := getCol_len_low h hr
  have lrsv : (EF.zip3With
      (fun c l h => EF.mul (EF.div (EF.sub c l) (EF.sub h l)) (EF.fin 100))
      (df.getCol "close") (EF.rollingMin 9 (df.getCol "low"))
      (EF.rollingMax 9 (df.getCol "high"))).length = N := by
    simp [EF.length_zip3With, EF.length_rollingMin, EF.length_rollingMax, hc, hh, hl]
  have g1 := good_setCol_of_len h hr "K" _ ((EF.length_ewmMean (1 / 3) _).trans lrsv)
  have g2 := good_setCol_of_len g1.1 g1.2 "D" _
    ((EF.length_ewmMean (1 / 3) _).trans ((EF.length_ewmMean (1 / 3) _).trans lrsv))
  refine good_setCol_of_len g2.1 g2.2 "J" _ ?_
  simp [EF.length_ewmMean, lrsv]

theorem good_calculate_volume_ma {N : ℕ} {df : DF} (h : DFInv N df) (hr : HasReq df) :
    DFInv N (calculate_volume_ma df [5, 10, 20]) ∧
      HasReq (calculate_volume_ma df [5, 10, 20]) := by
  rw [calculate_volume_ma_eval]
  have hv := getCol_len_volume h hr
  have g1 := good_setCol_of_len h hr "VOL_MA5" _ ((EF.length_rollingMean 5 _).trans hv)
  have g2 := good_setCol_of_len g1.1 g1.2 "VOL_MA10" _
    ((EF.length_rollingMean 10 _).trans hv)
  exact good_setCol_of_len g2.1 g2.2 "VOL_MA20" _ ((EF.length_rollingMean 20 _).trans hv)

theorem good_calculate_atr {N : ℕ} {df : DF} (h : DFInv N df) (hr : HasReq df)
    (period : ℕ) :
    DFInv N (calculate_atr df period) ∧ HasReq (calculate_atr df period) := by
  rw [calculate_atr_eval]
  refine good_setCol_of_len h hr "ATR" _ ?_
  simp [EF.length_rollingMean, EF.length_zip3With, EF.length_shift1,
    getCol_len_close h hr, getCol_len_high h hr, getCol_len_low h hr]

theorem good_calculate_obv {N : ℕ} {df : DF} (h : DFInv N df) (hr : HasReq df) :
    DFInv N (calculate_obv df) ∧ HasReq (calculate_obv df) := by
  rw [calculate_obv_eval]
  refine good_setCol_of_len h hr "OBV" _ ?_
  simp [EF.length_cumsum, EF.length_zip3With, EF.length_shift1,
    getCol_len_close h hr, getCol_len_volume h hr]

theorem good_enrichCore {N : ℕ} {df : DF} (h : DFInv N df) (hr : HasReq df) :
    DFInv N (enrichCore df) ∧ HasReq (enrichCore df) := by
  rw [enrichCore]
  have h1 := good_calculate_ma h hr
  have h2 := good_calculate_ema h1.1 h1.2
  have h3 := good_calculate_rsi h2.1 h2.2 14
  have h4 := good_calculate_macd h3.1 h3.2
  have h5 := good_calculate_bollinger h4.1 h4.2
  have h6 := good_calculate_kdj h5.1 h5.2
  have h7 := good_calculate_volume_ma h6.1 h6.2
  have h8 := good_calculate_atr h7.1 h7.2 14
  exact good_calculate_obv h8.1 h8.2

end InvChain

/-! Helper lemmas: the MA-prefixed column names through the indicator
chain. -/

section MaChain

open TechnicalAnalyzer

theorem stepFresh {d : DF} {L : List String} (n : String) (v : List EF)
    (hma : strStarts "MA" n = true) (hd : d.maFilter = L) (hn : L.contains n = false) :
    (d.setCol n v).maFilter = L ++ [n] := by
  have hcol : d.hasCol n = false := by
    rw [DF.hasCol_eq_maFilter_contains _ _ hma, hd]
    exact hn
  rw [DF.maFilter_setCol_fresh _ _ _ hma hcol, hd]

theorem stepNotMa {d : DF} {L : List String} (n : String) (v : List EF)
    (hma : strStarts "MA" n = false) (hd : d.maFilter = L) :
    (d.setCol n v).maFilter = L := by
  rw [DF.maFilter_setCol_not_ma _ _ _ hma, hd]

theorem maFilter_calculate_ma {df : DF} (h : df.maFilter = []) :
    (calculate_ma df [5, 10, 20, 60]).maFilter = ["MA5", "MA10", "MA20", "MA60"] := by
  rw [calculate_ma_eval]
  have s1 := stepFresh "MA5" (EF.rollingMean 5 (df.getCol "close")) (by decide) h (by decide)
  have s2 := stepFresh "MA10" (EF.rollingMean 10 (df.getCol "close")) (by decide) s1 (by decide)
  have s3 := stepFresh "MA20" (EF.rollingMean 20 (df.getCol "close")) (by decide) s2 (by decide)
  have s4 := stepFresh "MA60" (EF.rollingMean 60 (df.getCol "close")) (by decide) s3 (by decide)
  rw [s4]
  rfl

theorem maFilter_calculate_ema (df : DF) :
    (calculate_ema df [5, 12, 26]).maFilter = df.maFilter := by
  rw [calculate_ema_eval]
  exact stepNotMa "EMA26" _ (by decide)
    (stepNotMa "EMA12" _ (by decide) (stepNotMa "EMA5" _ (by decide) rfl))

theorem maFilter_calculate_rsi (df : DF) (p : ℕ) :
    (calculate_rsi df p).maFilter = df.maFilter := by
  rw [calculate_rsi_eval]
  exact stepNotMa "RSI" _ (by decide) rfl

theorem maFilter_calculate_macd {df : DF} (h : df.maFilter = ["MA5", "MA10", "MA20", "MA60"]) :
    (calculate_macd df 12 26 9).maFilter =
      ["MA5", "MA10", "MA20", "MA60", "MACD", "MACD_Signal", "MACD_Histogram"] := by
  rw [calculate_macd_eval]
  have s1 := stepFresh "MACD"
    (List.zipWith EF.sub (EF.ewmMean (emaAlpha 12) (df.getCol "close"))
      (EF.ewmMean (emaAlpha 26) (df.getCol "close")))
    (by decide) h (by decide)
  have s2 := stepFresh "MACD_Signal"
    (EF.ewmMean (emaAlpha 9) (List.zipWith EF.sub
      (EF.ewmMean (emaAlpha 12) (df.getCol "close"))
      (EF.ewmMean (emaAlpha 26) (df.getCol "close"))))
    (by decide) s1 (by decide)
  have s3 := stepFresh "MACD_Histogram"
    (List.zipWith EF.sub
      (List.zipWith EF.sub (EF.ewmMean (emaAlpha 12) (df.getCol "close"))
        (EF.ewmMean (emaAlpha 26) (df.getCol "close")))
      (EF.ewmMean (emaAlpha 9) (List.zipWith EF.sub
        (EF.ewmMean (emaAlpha 12) (df.getCol "close"))
        (EF.ewmMean (emaAlpha 26) (df.getCol "close")))))
    (by decide) s2 (by decide)
  rw [s3]
  rfl

theorem maFilter_calculate_bollinger (df : DF) :
    (calculate_bollinger df 20 2).maFilter = df.maFilter := by
  rw [calculate_bollinger_eval]
  exact stepNotMa "BOLL_WIDTH" _ (by decide)
    (stepNotMa "BOLL_LOWER" _ (by decide)
      (stepNotMa "BOLL_UPPER" _ (by decide)
        (stepNotMa "BOLL_STD" _ (by decide)
          (stepNotMa "BOLL_MID" _ (by decide) rfl))))

theorem maFilter_calculate_kdj (df : DF) :
    (calculate_kdj df 9 3 3).maFilter = df.maFilter := by
  rw [calculate_kdj_eval]
  exact stepNotMa "J" _ (by decide)
    (stepNotMa "D" _ (by decide) (stepNotMa "K" _ (by decide) rfl))

theorem maFilter_calculate_volume_ma (df : DF) :
    (calculate_volume_ma df [5, 10, 20]).maFilter = df.maFilter := by
  rw [calculate_volume_ma_eval]
  exact stepNotMa "VOL_MA20" _ (by decide)
    (stepNotMa "VOL_MA10" _ (by decide) (stepNotMa "VOL_MA5" _ (by decide) rfl))

theorem maFilter_calculate_atr (df : DF) (p : ℕ) :
    (calculate_atr df p).maFilter = df.maFilter := by
  rw [calculate_atr_eval]
  exact stepNotMa "ATR" _ (by decide) rfl

theorem maFilter_calculate_obv (df : DF) :
    (calculate_obv df).maFilter = df.maFilter := by
  rw [calculate_obv_eval]
  exact stepNotMa "OBV" _ (by decide) rfl

theorem maFilter_enrichCore {df : DF} (h : df.maFilter = []) :
    (enrichCore df).maFilter =
      ["MA5", "MA10", "MA20", "MA60", "MACD", "MACD_Signal", "MACD_Histogram"] := by
  rw [enrichCore]
  have m1 := maFilter_calculate_ma h
  have m2 := (maFilter_calculate_ema _).trans m1
  have m3 := (maFilter_calculate_rsi _ 14).trans m2
  have m4 := maFilter_calculate_macd m3
  have m5 := (maFilter_calculate_bollinger _).trans m4
  have m6 := (maFilter_calculate_kdj _).trans m5
  have m7 := (maFilter_calculate_volume_ma _).trans m6
  have m8 := (maFilter_calculate_atr _ 14).trans m7
  exact (maFilter_calculate_obv _).trans m8

end MaChain

/-! Helper lemmas: lookups in the signal summary. -/

section SignalLookup

open TechnicalAnalyzer

theorem lookup_rsiPart_other (df : DF) (k : String) (h1 : k ≠ "RSI")
    (h2 : k ≠ "RSI_VALUE") : List.lookup k (rsiPart df) = none := by
  rw [rsiPart]
  by_cases h : df.hasCol "RSI" <;>
    simp [h, List.lookup_cons, beq_eq_false_iff_ne.2 h1, beq_eq_false_iff_ne.2 h2]

theorem lookup_macdPart_other (df : DF) (k : String) (h1 : k ≠ "MACD")
    (h2 : k ≠ "MACD_VALUE") (h3 : k ≠ "MACD_SIGNAL") :
    List.lookup k (macdPart df) = none := by
  rw [macdPart]
  by_cases h : (df.hasCol "MACD" && df.hasCol "MACD_Signal") = true <;>
    simp [h, List.lookup_cons, beq_eq_false_iff_ne.2 h1, beq_eq_false_iff_ne.2 h2,
      beq_eq_false_iff_ne.2 h3]

theorem lookup_maPart_other (df : DF) (k : String) (h1 : k ≠ "MA_TREND") :
    List.lookup k (maPart df) = none := by
  rw [maPart]
  by_cases h : 3 ≤ (df.names.filter (fun s => strStarts "MA" s)).length <;>
    simp [h, List.lookup_cons, beq_eq_false_iff_ne.2 h1]

theorem lookup_bollPart_other (df : DF) (k : String) (h1 : k ≠ "BOLLINGER") :
    List.lookup k (bollPart df) = none := by
  rw [bollPart]
  by_cases h : (df.hasCol "BOLL_UPPER" && df.hasCol "BOLL_LOWER") = true <;>
    simp [h, List.lookup_cons, beq_eq_false_iff_ne.2 h1]

theorem lookup_signals_rsi (df : DF) (hlen : ¬ df.len = 0) (h : df.hasCol "RSI" = true) :
    List.lookup "RSI" (get_latest_signals df) =
      some (SigVal.s (if EF.blt (EF.fin 70) (df.lastVal "RSI") then "超买"
        else if EF.blt (df.lastVal "RSI") (EF.fin 30) then "超卖" else "中性")) ∧
    List.lookup "RSI_VALUE" (get_latest_signals df) =
      some (SigVal.v (EF.roundTo 2 (df.lastVal "RSI"))) := by
  rw [get_latest_signals, if_neg hlen]
  constructor
  · refine DF.lookup_append_some ?_ _
    rw [rsiPart, if_pos h]
    rfl
  · refine DF.lookup_append_some ?_ _
    rw [rsiPart, if_pos h]
    simp [List.lookup_cons]

theorem lookup_signals_kdj (df : DF) (hlen : ¬ df.len = 0) (h : df.hasCol "J" = true) :
    List.lookup "KDJ" (get_latest_signals df) =
      some (SigVal.s (if EF.blt (EF.fin 100) (df.lastVal "J") then "超买区"
        else if EF.blt (df.lastVal "J") (EF.fin 0) then "超卖区" else "震荡区")) ∧
    List.lookup "KDJ_J" (get_latest_signals df) =
      some (SigVal.v (EF.roundTo 2 (df.lastVal "J"))) := by
  rw [get_latest_signals, if_neg hlen]
  simp only [List.append_assoc]
  constructor
  · rw [DF.lookup_append_none (lookup_rsiPart_other df "KDJ" (by decide) (by decide)),
      DF.lookup_append_none (lookup_macdPart_other df "KDJ" (by decide) (by decide) (by decide)),
      DF.lookup_append_none (lookup_maPart_other df "KDJ" (by decide)),
      DF.lookup_append_none (lookup_bollPart_other df "KDJ" (by decide))]
    rw [kdjPart, if_pos h]
    rfl
  · rw [DF.lookup_append_none (lookup_rsiPart_other df "KDJ_J" (by decide) (by decide)),
      DF.lookup_append_none (lookup_macdPart_other df "KDJ_J" (by decide) (by decide) (by decide)),
      DF.lookup_append_none (lookup_maPart_other df "KDJ_J" (by decide)),
      DF.lookup_append_none (lookup_bollPart_other df "KDJ_J" (by decide))]
    rw [kdjPart, if_pos h]
    simp [List.lookup_cons]

theorem lookup_signals_ma_trend (df : DF) (hlen : ¬ df.len = 0)
    (hma : df.names.filter (fun s => strStarts "MA" s) =
      ["MA5", "MA10", "MA20", "MA60", "MACD", "MACD_Signal", "MACD_Histogram"]) :
    List.lookup "MA_TREND" (get_latest_signals df) =
      some (SigVal.s (SpecSide.maAlignSpec (df.lastVal "MA10") (df.lastVal "MA20")
        (df.lastVal "MA5"))) := by
  rw [get_latest_signals, if_neg hlen]
  simp only [List.append_assoc]
  rw [DF.lookup_append_none (lookup_rsiPart_other df "MA_TREND" (by decide) (by decide)),
    DF.lookup_append_none (lookup_macdPart_other df "MA_TREND" (by decide) (by decide) (by decide))]
  refine DF.lookup_append_some ?_ _
  rw [maPart]
  rw [hma]
  rw [if_pos (by norm_num)]
  rw [show (sortStrings ["MA5", "MA10", "MA20", "MA60", "MACD", "MACD_Signal",
      "MACD_Histogram"]).take 3 = ["MA10", "MA20", "MA5"] from by decide]
  rfl

end SignalLookup

/-! Helper lemmas: the heap semantics. -/

section HeapLemmas

open TechnicalAnalyzer

theorem heapRead_append {h : Heap} {i : ℕ} (hi : i < List.length h) (d : DF) :
    heapRead (h ++ [d]) i = heapRead h i := by
  rw [heapRead, heapRead, List.getD_eq_getElem?_getD, List.getD_eq_getElem?_getD,
    List.getElem?_append, if_pos hi]

theorem heapRead_set_ne {h : Heap} {i j : ℕ} (hne : i ≠ j) (d : DF) :
    heapRead (List.set h j d) i = heapRead h i := by
  rw [heapRead, heapRead, List.getD_eq_getElem?_getD, List.getD_eq_getElem?_getD,
    List.getElem?_set_ne (Ne.symm hne)]

theorem heapRead_set_self {h : Heap} {j : ℕ} (hj : j < List.length h) (d : DF) :
    heapRead (List.set h j d) j = d := by
  rw [heapRead, List.getD_eq_getElem?_getD, List.getElem?_set_self hj]
  rfl

theorem runCopyThen_read (f : DF → DF) (h : Heap) (r i : ℕ) (hi : i < List.length h) :
    heapRead (runCopyThen f h r).1 i = heapRead h i := by
  rw [runCopyThen, heapAlloc, heapWrite]
  exact (heapRead_set_ne (Nat.ne_of_lt hi) _).trans (heapRead_append hi _)

theorem runCopyThen_len (f : DF → DF) (h : Heap) (r : ℕ) :
    List.length (runCopyThen f h r).1 = List.length h + 1 := by
  rw [runCopyThen, heapAlloc, heapWrite]
  simp

theorem runCopyThen_ref (f : DF → DF) (h : Heap) (r : ℕ) :
    (runCopyThen f h r).2 = List.length h := rfl

theorem runCopyThen_result (f : DF → DF) (h : Heap) (r : ℕ) :
    heapRead (runCopyThen f h r).1 (runCopyThen f h r).2 = f (heapRead h r) := by
  rw [runCopyThen, heapAlloc, heapWrite]
  have hlt : List.length h < List.length (h ++ [heapRead h r]) := by simp
  rw [heapRead_set_self hlt]
  congr 1
  have : heapRead (h ++ [heapRead h r]) (List.length h) = heapRead h r := by
    rw [heapRead, List.getD_eq_getElem?_getD, List.getElem?_append_right (le_refl _)]
    simp [heapRead]
  rw [this]

end HeapLemmas

/-! Helper lemmas: finite-data evaluation of OBV and ATR. -/

section ValueLift

open TechnicalAnalyzer

theorem cumsum_lift : ∀ (l : List ℚ) (a : ℚ),
    EF.cumsumGo (EF.fin a) (l.map EF.fin) = (SpecSide.cumsumQ a l).map EF.fin
  | [], _ => rfl
  | q :: rest, a => by
      show EF.add (EF.fin a) (EF.fin q) :: EF.cumsumGo (EF.add (EF.fin a) (EF.fin q))
          (rest.map EF.fin) = _
      rw [EF.add_fin, cumsum_lift rest (a + q)]
      rfl

theorem obv_zip_lift : ∀ (p : ℚ) (cs vs : List ℚ),
    EF.zip3With
      (fun c pc v => if EF.blt pc c then v else if EF.blt c pc then EF.neg v else EF.fin 0)
      (cs.map EF.fin) (((p :: cs).dropLast).map EF.fin) (vs.map EF.fin) =
      (SpecSide.obvContribs (some p) cs vs).map EF.fin
  | _, [], _ => rfl
  | p, c :: cs2, [] => rfl
  | p, c :: cs2, v :: vs2 => by
      show (if EF.blt (EF.fin p) (EF.fin c) then EF.fin v
          else if EF.blt (EF.fin c) (EF.fin p) then EF.neg (EF.fin v) else EF.fin 0) ::
          EF.zip3With _ (cs2.map EF.fin) (((c :: cs2).dropLast).map EF.fin)
            (vs2.map EF.fin) = _
      rw [obv_zip_lift c cs2 vs2]
      show (if decide (p < c) = true then EF.fin v
          else if decide (c < p) = true then EF.neg (EF.fin v) else EF.fin 0) :: _ = _
      rcases lt_trichotomy p c with h | h | h
      · simp [h, not_lt.2 h.le, SpecSide.obvContribs]
      · simp [h, lt_irrefl, SpecSide.obvContribs]
      · simp [h, not_lt.2 h.le, SpecSide.obvContribs, EF.neg]

theorem calculate_obv_lift (df : DF) (cs vs : List ℚ)
    (hc : df.getCol "close" = cs.map EF.fin) (hv : df.getCol "volume" = vs.map EF.fin) :
    (calculate_obv df).getCol "OBV" = (SpecSide.obvSpecList cs vs).map EF.fin := by
  rw [calculate_obv_eval, DF.getCol_setCol_self, hc, hv, SpecSide.obvSpecList]
  cases cs with
  | nil =>
      cases vs <;> rfl
  | cons c cs2 =>
      cases vs with
      | nil => rfl
      | cons v vs2 =>
          show EF.cumsum ((if EF.blt EF.nan (EF.fin c) then EF.fin v
            else if EF.blt (EF.fin c) EF.nan then EF.neg (EF.fin v) else EF.fin 0) ::
            EF.zip3With _ (cs2.map EF.fin) (((c :: cs2).map EF.fin).dropLast)
              (vs2.map EF.fin)) = _
          rw [show ((c :: cs2).map EF.fin).dropLast = ((c :: cs2).dropLast).map EF.fin from
            (List.map_dropLast _ _).symm]
          rw [obv_zip_lift c cs2 vs2]
          show EF.cumsum (EF.fin 0 :: (SpecSide.obvContribs (some c) cs2 vs2).map EF.fin) = _
          show EF.cumsumGo (EF.fin 0) (EF.fin 0 :: _) = _
          show EF.add (EF.fin 0) (EF.fin 0) :: EF.cumsumGo (EF.add (EF.fin 0) (EF.fin 0)) _ = _
          rw [EF.add_fin, cumsum_lift]
          show _ = (((0 : ℚ) + 0) :: SpecSide.cumsumQ ((0 : ℚ) + 0)
            (SpecSide.obvContribs (some c) cs2 vs2)).map EF.fin
          rw [show ((0 : ℚ) + 0) = 0 from by norm_num]
          rfl

theorem atr_zip_lift : ∀ (p : ℚ) (hs ls cs : List ℚ),
    EF.zip3With (fun a b c => EF.maxSkipNa (EF.maxSkipNa a b) c)
      (List.zipWith EF.sub (hs.map EF.fin) (ls.map EF.fin))
      (List.zipWith (fun h pc => EF.eabs (EF.sub h pc)) (hs.map EF.fin)
        (((p :: cs).dropLast).map EF.fin))
      (List.zipWith (fun l pc => EF.eabs (EF.sub l pc)) (ls.map EF.fin)
        (((p :: cs).dropLast).map EF.fin)) =
      (SpecSide.atrTR (some p) hs ls cs).map EF.fin
  | _, [], _, _ => rfl
  | _, h :: hs2, [], _ => rfl
  | p, h :: hs2, l :: ls2, [] => rfl
  | p, h :: hs2, l :: ls2, c :: cs2 => by
      show EF.maxSkipNa (EF.maxSkipNa (EF.sub (EF.fin h) (EF.fin l))
            (EF.eabs (EF.sub (EF.fin h) (EF.fin p))))
          (EF.eabs (EF.sub (EF.fin l) (EF.fin p))) ::
          EF.zip3With _ (List.zipWith EF.sub (hs2.map EF.fin) (ls2.map EF.fin))
            (List.zipWith _ (hs2.map EF.fin) (((c :: cs2).dropLast).map EF.fin))
            (List.zipWith _ (ls2.map EF.fin) (((c :: cs2).dropLast).map EF.fin)) = _
      rw [atr_zip_lift c hs2 ls2 cs2, EF.sub_fin, EF.sub_fin, EF.sub_fin]
      show EF.maxSkipNa (EF.maxSkipNa (EF.fin (h - l)) (EF.fin |h - p|)) (EF.fin |l - p|) :: _ = _
      rw [EF.maxSkipNa_fin_fin, EF.maxSkipNa_fin_fin]
      rfl

theorem calculate_atr_trueRange (df : DF) (hs ls cs : List ℚ)
    (hh : df.getCol "high" = hs.map EF.fin) (hl : df.getCol "low" = ls.map EF.fin)
    (hc : df.getCol "close" = cs.map EF.fin) (period : ℕ) :
    (calculate_atr df period).getCol "ATR" =
      EF.rollingMean period ((SpecSide.atrTR none hs ls cs).map EF.fin) := by
  rw [calculate_atr_eval, DF.getCol_setCol_self, hh, hl, hc]
  congr 1
  cases hs with
  | nil => cases ls <;> cases cs <;> rfl
  | cons h hs2 =>
      cases ls with
      | nil => cases cs <;> rfl
      | cons l ls2 =>
          cases cs with
          | nil => rfl
          | cons c cs2 =>
              show EF.maxSkipNa (EF.maxSkipNa (EF.sub (EF.fin h) (EF.fin l))
                    (EF.eabs (EF.sub (EF.fin h) EF.nan)))
                  (EF.eabs (EF.sub (EF.fin l) EF.nan)) ::
                  EF.zip3With _ (List.zipWith EF.sub (hs2.map EF.fin) (ls2.map EF.fin))
                    (List.zipWith _ (hs2.map EF.fin) (((c :: cs2).map EF.fin).dropLast))
                    (List.zipWith _ (ls2.map EF.fin) (((c :: cs2).map EF.fin).dropLast)) = _
              rw [show ((c :: cs2).map EF.fin).dropLast = ((c :: cs2).dropLast).map EF.fin from
                (List.map_dropLast _ _).symm]
              rw [atr_zip_lift c hs2 ls2 cs2, EF.sub_fin]
              rfl

theorem rollingMean_map_fin_get (w : ℕ) (l : List ℚ) (i : ℕ) (hi : i < l.length)
    (hw : ¬ i + 1 < w) :
    (EF.rollingMean w (l.map EF.fin))[i]? =
      some (EF.fin (((l.drop (i + 1 - w)).take w).sum / (w : ℚ))) := by
  rw [EF.rollingMean_getElem? w _ i (by simpa using hi), if_neg hw]
  rw [show (l.map EF.fin).drop (i + 1 - w) = (l.drop (i + 1 - w)).map EF.fin from
    (List.map_drop ..).symm]
  rw [show ((l.drop (i + 1 - w)).map EF.fin).take w = ((l.drop (i + 1 - w)).take w).map EF.fin
    from (List.map_take ..).symm]
  rw [EF.finList_map_fin]

theorem rollingMean_map_fin_get_lt (w : ℕ) (l : List ℚ) (i : ℕ) (hi : i < l.length)
    (hw : i + 1 < w) :
    (EF.rollingMean w (l.map EF.fin))[i]? = some EF.nan := by
  rw [EF.rollingMean_getElem? w _ i (by simpa using hi), if_pos hw]

end ValueLift

/-! Helper lemmas: KDJ on a flat (zero-range) series. -/

section FlatKdj

open TechnicalAnalyzer

theorem foldl_min_replicate (p : ℚ) : ∀ k, (List.replicate k p).foldl min p = p
  | 0 => rfl
  | k + 1 => by
      rw [List.replicate_succ, List.foldl_cons, min_self]
      exact foldl_min_replicate p k

theorem foldl_max_replicate (p : ℚ) : ∀ k, (List.replicate k p).foldl max p = p
  | 0 => rfl
  | k + 1 => by
      rw [List.replicate_succ, List.foldl_cons, max_self]
      exact foldl_max_replicate p k

theorem rollingMin_replicate_get (w n i : ℕ) (p : ℚ) (hi : i < n) (hw : 0 < w) :
    (EF.rollingMin w (List.replicate n (EF.fin p)))[i]? =
      some (if i + 1 < w then EF.nan else EF.fin p) := by
  have hlen : i < (List.replicate n (EF.fin p)).length := by simpa using hi
  rw [EF.rollingMin_getElem? w _ i hlen]
  by_cases hc : i + 1 < w
  · rw [if_pos hc, if_pos hc]
  · rw [if_neg hc, if_neg hc]
    rw [List.drop_replicate, List.take_replicate]
    have hk : min w (n - (i + 1 - w)) = w := by omega
    rw [hk]
    rw [show List.replicate w (EF.fin p) = (List.replicate w p).map EF.fin from by
      rw [List.map_replicate]]
    rw [EF.finList_map_fin]
    obtain ⟨w2, rfl⟩ : ∃ w2, w = w2 + 1 := ⟨w - 1, by omega⟩
    rw [List.replicate_succ]
    show some (EF.fin ((List.replicate w2 p).foldl min p)) = some (EF.fin p)
    rw [foldl_min_replicate]
  
theorem rollingMax_replicate_get (w n i : ℕ) (p : ℚ) (hi : i < n) (hw : 0 < w) :
    (EF.rollingMax w (List.replicate n (EF.fin p)))[i]? =
      some (if i + 1 < w then EF.nan else EF.fin p) := by
  have hlen : i < (List.replicate n (EF.fin p)).length := by simpa using hi
  rw [EF.rollingMax_getElem? w _ i hlen]
  by_cases hc : i + 1 < w
  · rw [if_pos hc, if_pos hc]
  · rw [if_neg hc, if_neg hc]
    rw [List.drop_replicate, List.take_replicate]
    have hk : min w (n - (i + 1 - w)) = w := by omega
    rw [hk]
    rw [show List.replicate w (EF.fin p) = (List.replicate w p).map EF.fin from by
      rw [List.map_replicate]]
    rw [EF.finList_map_fin]
    obtain ⟨w2, rfl⟩ : ∃ w2, w = w2 + 1 := ⟨w - 1, by omega⟩
    rw [List.replicate_succ]
    show some (EF.fin ((List.replicate w2 p).foldl max p)) = some (EF.fin p)
    rw [foldl_max_replicate]

theorem ewm_nan (a : ℚ) (st2 : ℚ) : ∀ n : ℕ,
    EF.ewmGo a (EF.nan, st2) (List.replicate n EF.nan) = List.replicate n EF.nan
  | 0 => rfl
  | n + 1 => by
      rw [List.replicate_succ, EF.ewmGo]
      show EF.nan :: EF.ewmGo a (EF.nan, st2) (List.replicate n EF.nan) = _
      rw [ewm_nan a st2 n]

theorem ewmMean_nan (a : ℚ) (n : ℕ) :
    EF.ewmMean a (List.replicate n EF.nan) = List.replicate n EF.nan := ewm_nan a 1 n

theorem zipWith_replicate_same (f : EF → EF → EF) (a b : EF) : ∀ n : ℕ,
    List.zipWith f (List.replicate n a) (List.replicate n b) = List.replicate n (f a b)
  | 0 => rfl
  | n + 1 => by
      rw [List.replicate_succ, List.replicate_succ, List.zipWith_cons_cons,
        zipWith_replicate_same f a b n, List.replicate_succ]

theorem rsv_flat (n : ℕ) (p : ℚ) :
    EF.zip3With (fun c l h => EF.mul (EF.div (EF.sub c l) (EF.sub h l)) (EF.fin 100))
      (List.replicate n (EF.fin p)) (EF.rollingMin 9 (List.replicate n (EF.fin p)))
      (EF.rollingMax 9 (List.replicate n (EF.fin p))) = List.replicate n EF.nan := by
  apply List.ext_getElem?
  intro i
  by_cases hi : i < n
  · rw [EF.getElem?_zip3With, List.getElem?_replicate_of_lt hi,
      rollingMin_replicate_get 9 n i p hi (by norm_num),
      rollingMax_replicate_get 9 n i p hi (by norm_num),
      List.getElem?_replicate_of_lt hi]
    by_cases hw : i + 1 < 9
    · rw [if_pos hw]
      rfl
    · rw [if_neg hw]
      show some (EF.mul (EF.div (EF.sub (EF.fin p) (EF.fin p))
        (EF.sub (EF.fin p) (EF.fin p))) (EF.fin 100)) = some EF.nan
      rw [EF.sub_fin, sub_self]
      rfl
  · have h1 : n ≤ i := not_lt.1 hi
    rw [List.getElem?_eq_none (l := List.replicate n EF.nan) (by simpa using h1),
      List.getElem?_eq_none]
    rw [EF.length_zip3With, EF.length_rollingMin, EF.length_rollingMax]
    simpa using h1

theorem calculate_kdj_flat (df : DF) (n : ℕ) (p : ℚ)
    (hh : df.getCol "high" = List.replicate n (EF.fin p))
    (hl : df.getCol "low" = List.replicate n (EF.fin p))
    (hc : df.getCol "close" = List.replicate n (EF.fin p)) :
    (calculate_kdj df 9 3 3).getCol "J" = List.replicate n EF.nan := by
  rw [calculate_kdj_eval, DF.getCol_setCol_self, hh, hl, hc, rsv_flat, ewmMean_nan,
    ewmMean_nan, List.map_replicate, List.map_replicate]
  rw [show EF.mul (EF.fin 3) EF.nan = EF.nan from rfl,
    show EF.mul (EF.fin 2) EF.nan = EF.nan from rfl,
    zipWith_replicate_same]
  rfl

end FlatKdj

/-! Helper lemmas: trend strength on finite closes. -/

section TrendHelpers

open TechnicalAnalyzer

theorem filter_not_isNan_map_fin (l : List ℚ) :
    (l.map EF.fin).filter (fun x => !x.isNan) = l.map EF.fin := by
  apply List.filter_eq_self.mpr
  intro x hx
  obtain ⟨q, _, rfl⟩ := List.mem_map.1 hx
  rfl

theorem meanSkipNa_map_fin (l : List ℚ) (hne : l ≠ []) :
    meanSkipNa (l.map EF.fin) = EF.fin (l.sum / (l.length : ℚ)) := by
  rw [meanSkipNa, filter_not_isNan_map_fin, List.length_map]
  rw [if_neg (by simpa using hne)]
  rw [EF.foldl_add_fin, zero_add]
  have hlen : ((l.length : ℕ) : ℚ) ≠ 0 := by
    exact_mod_cast fun h => hne (List.length_eq_zero.1 h)
  simp [EF.div, hlen]

theorem zipWith_mul_finx : ∀ (xs qs : List ℚ),
    List.zipWith (fun x y => EF.mul (EF.fin x) y) xs (qs.map EF.fin) =
      (List.zipWith (fun a b => a * b) xs qs).map EF.fin
  | [], _ => rfl
  | _ :: _, [] => rfl
  | x :: xs2, q :: qs2 => by
      rw [List.map_cons, List.zipWith_cons_cons, List.zipWith_cons_cons, List.map_cons,
        EF.mul_fin, zipWith_mul_finx xs2 qs2]

theorem polyfitSlope_map_fin (qs : List ℚ) (h20 : qs.length = 20) :
    polyfitSlope (qs.map EF.fin) = EF.fin (SpecSide.lsSlopeQ qs) := by
  rw [polyfitSlope, SpecSide.lsSlopeQ, List.length_map, h20]
  rw [EF.foldl_add_fin, zero_add, zipWith_mul_finx, EF.foldl_add_fin, zero_add]
  rw [EF.mul_fin, EF.mul_fin, EF.sub_fin]
  rw [show List.range 20 = [0, 1, 2, 3, 4, 5, 6, 7, 8, 9, 10, 11, 12, 13, 14, 15, 16,
    17, 18, 19] from by decide]
  show EF.div (EF.fin _) (EF.fin _) = _
  norm_num [EF.div]

end TrendHelpers

/-! Helper lemmas: validation glue. -/

section Glue

open TechnicalAnalyzer

theorem cols_ne_nil_of_hasCol {df : DF} {c : String} (h : df.hasCol c = true) :
    df.cols ≠ [] := by
  intro hnil
  rw [DF.hasCol, DF.names, hnil] at h
  simp at h

theorem firstMissing_eq_none {df : DF}
    (h : ∀ c ∈ requiredCols, df.hasCol c = true) : firstMissing df = none := by
  rw [firstMissing, List.find?_eq_none]
  intro c hc
  simp [h c hc]

theorem calculate_all_ok {df : DF} (h : ∀ c ∈ requiredCols, df.hasCol c = true) :
    calculate_all_indicators df = Except.ok (enrichCore df) := by
  simp only [calculate_all_indicators, DF.copy, firstMissing_eq_none h]

theorem enrichD_eq {df : DF} (h : ∀ c ∈ requiredCols, df.hasCol c = true) :
    enrichD df = enrichCore df := by
  rw [enrichD, calculate_all_ok h]

theorem hasReq_of_required {df : DF} (h : ∀ c ∈ requiredCols, df.hasCol c = true) :
    HasReq df :=
  ⟨h "high" (by simp [requiredCols]), h "low" (by simp [requiredCols]),
   h "close" (by simp [requiredCols]), h "volume" (by simp [requiredCols])⟩

theorem length_atrTR : ∀ (prev : Option ℚ) (hs ls cs : List ℚ),
    (SpecSide.atrTR prev hs ls cs).length = min hs.length (min ls.length cs.length)
  | _, [], _, _ => by simp [SpecSide.atrTR]
  | _, _ :: _, [], _ => by simp [SpecSide.atrTR]
  | _, _ :: _, _ :: _, [] => by simp [SpecSide.atrTR]
  | prev, h :: hs, l :: ls, c :: cs => by
      simp [SpecSide.atrTR, length_atrTR (some c) hs ls cs]
      omega

end Glue

/-! The claims. -/

section Claims

open TechnicalAnalyzer

/-- C4 (counterexample): on closes `[10,11,10,10,12]` and volumes
`[100,200,150,150,300]`, the OBV column is NOT `[0, 200, -150, -150, 150]`
as the claim's example asserts (the code computes the cumulative sum
`[0, 200, 50, 50, 350]`). -/
theorem claim_C4_counterexample :
    (calculate_obv dfObvEx).getCol "OBV" ≠
      [EF.fin 0, EF.fin 200, EF.fin (-150), EF.fin (-150), EF.fin 150] := by
  decide

/-- C4 (amended): `calculate_obv` produces the running cumulative sum of
the signed volumes over the entire series (first row contributing 0,
`+volume` on an up-close, `-volume` on a down-close, 0 on equal closes),
and in particular on closes `[10,11,10,10,12]` with volumes
`[100,200,150,150,300]` the OBV column is `[0, 200, 50, 50, 350]`. -/
theorem claim_C4_obv :
    (∀ (df : DF) (cs vs : List ℚ), df.getCol "close" = cs.map EF.fin →
      df.getCol "volume" = vs.map EF.fin →
      (calculate_obv df).getCol "OBV" = (SpecSide.obvSpecList cs vs).map EF.fin) ∧
    (calculate_obv dfObvEx).getCol "OBV" =
      [EF.fin 0, EF.fin 200, EF.fin 50, EF.fin 50, EF.fin 350] :=
  ⟨fun df cs vs hc hv => calculate_obv_lift df cs vs hc hv, by decide⟩

/-- C4 (witness): the general OBV theorem applied to the example frame. -/
theorem claim_C4_witness :
    dfObvEx.getCol "close" = ([10, 11, 10, 10, 12] : List ℚ).map EF.fin ∧
    (calculate_obv dfObvEx).getCol "OBV" =
      (SpecSide.obvSpecList [10, 11, 10, 10, 12] [100, 200, 150, 150, 300]).map EF.fin :=
  ⟨by decide, claim_C4_obv.1 dfObvEx [10, 11, 10, 10, 12] [100, 200, 150, 150, 300]
    (by decide) (by decide)⟩

/-- C5: for every rectangular input frame with the five required columns,
`calculate_all_indicators` succeeds and the enriched frame has exactly
as many rows as the input. -/
theorem claim_C5_row_count (df : DF) (hw : df.wf = true)
    (hr : ∀ c ∈ requiredCols, df.hasCol c = true) :
    Except.map DF.len (calculate_all_indicators df) = Except.ok df.len := by
  rw [calculate_all_ok hr]
  show Except.ok (enrichCore df).len = Except.ok df.len
  have hreq : HasReq df := hasReq_of_required hr
  have hinv : DFInv df.len df := ⟨hw, rfl, cols_ne_nil_of_hasCol hreq.1⟩
  rw [(good_enrichCore hinv hreq).1.2.1]

/-- C5 (witness): the row-count theorem applied to a concrete three-row
frame. -/
theorem claim_C5_witness :
    (dfFlat 3).wf = true ∧
    Except.map DF.len (calculate_all_indicators (dfFlat 3)) = Except.ok (dfFlat 3).len :=
  ⟨by decide, claim_C5_row_count (dfFlat 3) (by decide) (by decide)⟩

/-- C7: an input missing at least one required column makes
`calculate_all_indicators` fail immediately with the validation error for
the first missing column (no enriched frame is produced); an input with
all five required columns never takes that error path. -/
theorem claim_C7_validation (df : DF) :
    ((∃ c ∈ requiredCols, df.hasCol c = false) →
      calculate_all_indicators df = Except.error ("缺少必要列: " ++
        ((requiredCols.find? (fun c => !(df.hasCol c))).getD ""))) ∧
    ((∀ c ∈ requiredCols, df.hasCol c = true) →
      (calculate_all_indicators df).isOk = true) := by
  constructor
  · rintro ⟨c, hc, hfalse⟩
    have hsome : (requiredCols.find? (fun c => !(df.hasCol c))).isSome := by
      rw [List.find?_isSome]
      exact ⟨c, hc, by simp [hfalse]⟩
    obtain ⟨m, hm⟩ := Option.isSome_iff_exists.1 hsome
    simp only [calculate_all_indicators, DF.copy, firstMissing, hm, Option.getD_some]
  · intro h
    rw [calculate_all_ok h]
    rfl

/-- C7 (witness): the validation theorem applied to a frame missing
`open` and to a complete two-row frame. -/
theorem claim_C7_witness :
    calculate_all_indicators dfMissing = Except.error "缺少必要列: open" ∧
    (calculate_all_indicators (dfFlat 2)).isOk = true := by
  constructor
  · have hstr : ("缺少必要列: " ++
        ((requiredCols.find? (fun c => !(dfMissing.hasCol c))).getD "")) =
        "缺少必要列: open" := by decide
    exact ((claim_C7_validation dfMissing).1 ⟨"open", by decide, by decide⟩).trans
      (by rw [hstr])
  · exact (claim_C7_validation (dfFlat 2)).2 (by decide)

end Claims

section Claims2

open TechnicalAnalyzer

/-- C1 (counterexample): on a three-row series (fewer than 15 rows, so
the last-row RSI is NaN) run through `calculate_all_indicators`, the
signal summary still contains an `RSI` entry — the neutral label — and an
`RSI_VALUE` entry, contradicting the claimed omission. -/
theorem claim_C1_counterexample :
    Except.map (fun e => (e.getCol "RSI").getLast?)
        (calculate_all_indicators (dfFlat 3)) = Except.ok (some EF.nan) ∧
    Except.map (fun e => List.lookup "RSI" (get_latest_signals e))
        (calculate_all_indicators (dfFlat 3)) = Except.ok (some (SigVal.s "中性")) ∧
    Except.map (fun e => List.lookup "RSI_VALUE" (get_latest_signals e))
        (calculate_all_indicators (dfFlat 3)) = Except.ok (some (SigVal.v EF.nan)) := by
  refine ⟨by decide, by decide, by decide⟩

/-- C1 (amended): `get_latest_signals` keys each entry on column
presence, not on the value being defined: whenever the `RSI` column
exists and its last-row value is NaN, the summary still contains the
entry `RSI ↦ 中性` (NaN compares false against both thresholds) together
with `RSI_VALUE ↦ NaN`, rather than omitting them. -/
theorem claim_C1_signals (df : DF) (hlen : 0 < df.len) (hcol : df.hasCol "RSI" = true)
    (hnan : df.lastVal "RSI" = EF.nan) :
    List.lookup "RSI" (get_latest_signals df) = some (SigVal.s "中性") ∧
    List.lookup "RSI_VALUE" (get_latest_signals df) = some (SigVal.v EF.nan) := by
  have h := lookup_signals_rsi df (by omega) hcol
  rw [hnan] at h
  simpa [EF.blt, EF.roundTo] using h

/-- C1 (witness): the amended theorem applied to a concrete frame with a
NaN last-row RSI. -/
theorem claim_C1_witness :
    0 < dfRsiNan.len ∧
    List.lookup "RSI" (get_latest_signals dfRsiNan) = some (SigVal.s "中性") ∧
    List.lookup "RSI_VALUE" (get_latest_signals dfRsiNan) = some (SigVal.v EF.nan) :=
  ⟨by decide, (claim_C1_signals dfRsiNan (by decide) (by decide) (by decide)).1,
   (claim_C1_signals dfRsiNan (by decide) (by decide) (by decide)).2⟩

/-- C2 (counterexample): on a flat fourteen-row series the 14-period
rolling average loss at row 13 (past the warm-up) is 0, yet the RSI value
there is NaN, not 100: with the average gain also 0, `rs = 0/0` is NaN
and propagates. -/
theorem claim_C2_counterexample :
    (rsiLoss ((dfFlat 14).getCol "close") 14)[13]? = some (EF.fin 0) ∧
    ((calculate_rsi (dfFlat 14) 14).getCol "RSI")[13]? = some EF.nan := by
  refine ⟨by decide, by decide⟩

/-- C2 (amended): at every row where the 14-period rolling average loss
is 0 and the rolling average gain is positive (a pure-gain window), the
RSI value is defined and equals 100: `rs` is `+∞` and
`100 - 100/(1+∞) = 100`. -/
theorem claim_C2_rsi (df : DF) (i : ℕ) (g : ℚ)
    (hloss : (rsiLoss (df.getCol "close") 14)[i]? = some (EF.fin 0))
    (hgain : (rsiGain (df.getCol "close") 14)[i]? = some (EF.fin g))
    (hg : 0 < g) :
    ((calculate_rsi df 14).getCol "RSI")[i]? = some (EF.fin 100) := by
  rw [calculate_rsi_eval, DF.getCol_setCol_self, List.getElem?_map,
    EF.getElem?_zipWith, hgain, hloss]
  show some (EF.sub (EF.fin 100) (EF.div (EF.fin 100) (EF.add (EF.fin 1)
    (EF.div (EF.fin g) (EF.fin 0))))) = _
  rw [show EF.div (EF.fin g) (EF.fin 0) = EF.pinf from by simp [EF.div, hg]]
  show some (EF.sub (EF.fin 100) (EF.fin 0)) = _
  rw [EF.sub_fin]
  norm_num

/-- C2 (witness): the amended theorem applied to fourteen strictly
increasing closes, whose row-13 average gain is 13/14 and average loss
is 0. -/
theorem claim_C2_witness :
    (rsiLoss (dfInc14.getCol "close") 14)[13]? = some (EF.fin 0) ∧
    ((calculate_rsi dfInc14 14).getCol "RSI")[13]? = some (EF.fin 100) :=
  ⟨by decide, claim_C2_rsi dfInc14 13 (13 / 14) (by decide) (by decide) (by decide)⟩

/-- C3 (counterexample): on a flat fifteen-row series the ATR value at
row 13 is defined (0), contradicting the claimed undefined warm-up
through row 13 with the first defined value only at row 14: the code's
`np.max` skips the NaN candidates, so row 0's TrueRange is
`high - low`. -/
theorem claim_C3_counterexample :
    ((calculate_atr (dfFlat 15) 14).getCol "ATR")[13]? = some (EF.fin 0) ∧
    ((calculate_atr (dfFlat 15) 14).getCol "ATR")[13]? ≠ some EF.nan := by
  refine ⟨by decide, by decide⟩

/-- C3 (amended): with the default period 14, row 0's TrueRange is
`high[0] - low[0]` (the two candidates that involve the missing previous
close are skipped by `DataFrame.max`), so the ATR column is undefined
exactly on rows 0..12 and its first defined value appears at row 13,
equal to the 14-row mean of the TrueRange over rows 0..13. -/
theorem claim_C3_atr (df : DF) (hs ls cs : List ℚ)
    (hh : df.getCol "high" = hs.map EF.fin) (hl : df.getCol "low" = ls.map EF.fin)
    (hc : df.getCol "close" = cs.map EF.fin)
    (hlh : ls.length = hs.length) (hch : cs.length = hs.length) (h14 : 14 ≤ hs.length) :
    (∀ i < 13, ((calculate_atr df 14).getCol "ATR")[i]? = some EF.nan) ∧
    ((calculate_atr df 14).getCol "ATR")[13]? =
      some (EF.fin (((SpecSide.atrTR none hs ls cs).take 14).sum / 14)) := by
  rw [calculate_atr_trueRange df hs ls cs hh hl hc 14]
  have hlenTR : (SpecSide.atrTR none hs ls cs).length = hs.length := by
    rw [length_atrTR, hlh, hch]
    omega
  constructor
  · intro i hi
    exact rollingMean_map_fin_get_lt 14 _ i (by omega) (by omega)
  · rw [rollingMean_map_fin_get 14 _ 13 (by omega) (by omega)]
    norm_num

/-- C3 (witness): the amended theorem applied to a flat fifteen-row
frame. -/
theorem claim_C3_witness :
    ((calculate_atr (dfFlat 15) 14).getCol "ATR")[5]? = some EF.nan ∧
    ((calculate_atr (dfFlat 15) 14).getCol "ATR")[13]? =
      some (EF.fin (((SpecSide.atrTR none (List.replicate 15 10) (List.replicate 15 10)
        (List.replicate 15 10)).take 14).sum / 14)) :=
  ⟨(claim_C3_atr (dfFlat 15) (List.replicate 15 10) (List.replicate 15 10)
      (List.replicate 15 10) (by decide) (by decide) (by decide) (by decide) (by decide)
      (by decide)).1 5 (by decide),
   (claim_C3_atr (dfFlat 15) (List.replicate 15 10) (List.replicate 15 10)
      (List.replicate 15 10) (by decide) (by decide) (by decide) (by decide) (by decide)
      (by decide)).2⟩

/-- C6 (counterexample): a flat nine-row series (zero trading range, so
RSV's denominator is zero at row 8) run through
`calculate_all_indicators` produces a summary whose `KDJ_J` value is NaN
— a NaN does leak into the signal summary. -/
theorem claim_C6_counterexample :
    Except.map (fun e => List.lookup "KDJ_J" (get_latest_signals e))
        (calculate_all_indicators (dfFlat 9)) = Except.ok (some (SigVal.v EF.nan)) := by
  decide

/-- C6 (amended): the zero-range case is not resolved to a defined
fallback: on a flat series every RSV is `0/0 = NaN`, the whole `J`
column is NaN, and whenever the last-row `J` is NaN the summary still
contains `KDJ ↦ 震荡区` together with `KDJ_J ↦ NaN` — the NaN leaks into
the signal summary. -/
theorem claim_C6_kdj_nan :
    (∀ (df : DF) (n : ℕ) (p : ℚ),
      df.getCol "high" = List.replicate n (EF.fin p) →
      df.getCol "low" = List.replicate n (EF.fin p) →
      df.getCol "close" = List.replicate n (EF.fin p) →
      (calculate_kdj df 9 3 3).getCol "J" = List.replicate n EF.nan) ∧
    (∀ df : DF, 0 < df.len → df.hasCol "J" = true → df.lastVal "J" = EF.nan →
      List.lookup "KDJ" (get_latest_signals df) = some (SigVal.s "震荡区") ∧
      List.lookup "KDJ_J" (get_latest_signals df) = some (SigVal.v EF.nan)) := by
  constructor
  · exact fun df n p hh hl hc => calculate_kdj_flat df n p hh hl hc
  · intro df hlen hcol hnan
    have h := lookup_signals_kdj df (by omega) hcol
    rw [hnan] at h
    simpa [EF.blt, EF.roundTo] using h

/-- C6 (witness): the amended theorem applied to a concrete flat
nine-row frame and to a frame with a NaN last-row `J`. -/
theorem claim_C6_witness :
    (calculate_kdj (dfFlatHLC 9 10) 9 3 3).getCol "J" = List.replicate 9 EF.nan ∧
    List.lookup "KDJ_J" (get_latest_signals dfJNan) = some (SigVal.v EF.nan) :=
  ⟨claim_C6_kdj_nan.1 (dfFlatHLC 9 10) 9 10 (by decide) (by decide) (by decide),
   (claim_C6_kdj_nan.2 dfJNan (by decide) (by decide) (by decide)).2⟩

end Claims2

section Claims3

open TechnicalAnalyzer

/-- C9: on a frame enriched with the default MA windows (input having no
MA-prefixed columns of its own), the alignment signal takes the first
three MA-prefixed columns in ascending lexicographic name order — MA10,
MA20, MA5 — and classifies strictly descending as the bullish label,
strictly ascending as the bearish label, and everything else as the
choppy label. -/
theorem claim_C9_ma_alignment (df : DF) (hw : df.wf = true)
    (hreq : ∀ c ∈ requiredCols, df.hasCol c = true)
    (hlen : 0 < df.len) (hma : df.maFilter = []) :
    List.lookup "MA_TREND" (get_latest_signals (enrichD df)) =
      some (SigVal.s (SpecSide.maAlignSpec ((enrichD df).lastVal "MA10")
        ((enrichD df).lastVal "MA20") ((enrichD df).lastVal "MA5"))) := by
  rw [enrichD_eq hreq]
  have hreq4 : HasReq df := hasReq_of_required hreq
  have hinv : DFInv df.len df := ⟨hw, rfl, cols_ne_nil_of_hasCol hreq4.1⟩
  have hgood := good_enrichCore hinv hreq4
  have hlen2 : ¬ (enrichCore df).len = 0 := by
    rw [hgood.1.2.1]
    omega
  have hfil := maFilter_enrichCore hma
  exact lookup_signals_ma_trend (enrichCore df) hlen2 hfil

/-- C9 (witness): the alignment theorem applied to a one-row flat
frame. -/
theorem claim_C9_witness :
    (dfFlat 1).wf = true ∧ (dfFlat 1).maFilter = [] ∧
    List.lookup "MA_TREND" (get_latest_signals (enrichD (dfFlat 1))) =
      some (SigVal.s (SpecSide.maAlignSpec ((enrichD (dfFlat 1)).lastVal "MA10")
        ((enrichD (dfFlat 1)).lastVal "MA20") ((enrichD (dfFlat 1)).lastVal "MA5"))) :=
  ⟨by decide, by decide,
   claim_C9_ma_alignment (dfFlat 1) (by decide) (by decide) (by decide) (by decide)⟩

/-- C10: `calculate_trend_strength` returns the insufficient-data label
exactly on frames of fewer than 20 rows; on finite closes with at least
20 rows it returns the classification determined by the sign of the
least-squares slope over the trailing 20 closes (x = 0..19) and the
comparison of the latest close against the trailing-20 mean. -/
theorem claim_C10_trend :
    (∀ df : DF, df.len < 20 → calculate_trend_strength df = "数据不足") ∧
    (∀ (df : DF) (qs : List ℚ), df.getCol "close" = qs.map EF.fin →
      qs.length = df.len → 20 ≤ df.len →
      calculate_trend_strength df =
        SpecSide.trendClassifySpec (SpecSide.lsSlopeQ (qs.drop (qs.length - 20)))
          ((qs.getLast?).getD 0) (SpecSide.meanQ (qs.drop (qs.length - 20)))) := by
  constructor
  · intro df h
    rw [calculate_trend_strength, if_pos h]
  · intro df qs hcol hlen h20
    simp only [calculate_trend_strength]
    rw [if_neg (show ¬ df.len < 20 by omega)]
    have htl : (qs.drop (qs.length - 20)).length = 20 := by
      rw [List.length_drop]
      omega
    have hne20 : qs.drop (qs.length - 20) ≠ [] := by
      intro h0
      rw [h0] at htl
      simp at htl
    have hlast : lastN 20 (df.getCol "close") = (qs.drop (qs.length - 20)).map EF.fin := by
      rw [hcol, lastN, List.length_map]
      exact (List.map_drop ..).symm
    rw [hlast, meanSkipNa_map_fin (qs.drop (qs.length - 20)) hne20,
      polyfitSlope_map_fin (qs.drop (qs.length - 20)) htl, htl]
    have hlv : df.lastVal "close" = EF.fin ((qs.getLast?).getD 0) := by
      rw [DF.lastVal, hcol, List.getLast?_map]
      obtain ⟨q, hq⟩ : ∃ q, qs.getLast? = some q := by
        cases hqq : qs.getLast? with
        | some q => exact ⟨q, rfl⟩
        | none =>
            exfalso
            rw [List.getLast?_eq_none_iff] at hqq
            rw [hqq] at htl
            simp at htl
      rw [hq]
      rfl
    rw [hlv, SpecSide.trendClassifySpec, SpecSide.meanQ, htl]
    simp only [EF.blt, Bool.and_eq_true, decide_eq_true_eq]
  
/-- C10 (witness): the trend theorem applied to a three-row frame and to
twenty strictly increasing closes. -/
theorem claim_C10_witness :
    calculate_trend_strength (dfFlat 3) = "数据不足" ∧
    calculate_trend_strength dfInc20 = "强势上涨" := by
  constructor
  · exact claim_C10_trend.1 (dfFlat 3) (by decide)
  · exact (claim_C10_trend.2 dfInc20 ((List.range 20).map (fun i => (i : ℚ)))
      (by decide) (by decide) (by decide)).trans (by decide)

end Claims3

section Claims4

open TechnicalAnalyzer

/-- C8: every indicator function, and the aggregate entry point, leaves
the caller's frame untouched on the heap (each begins with
`df = data.copy()` and writes columns only on the fresh frame) and
returns a reference distinct from the input — a newly produced
structure. -/
theorem claim_C8_no_mutation (h : Heap) (r : ℕ) (hr : r < List.length h) :
    (heapRead (calculate_ma_st h r).1 r = heapRead h r ∧ (calculate_ma_st h r).2 ≠ r) ∧
    (heapRead (calculate_ema_st h r).1 r = heapRead h r ∧ (calculate_ema_st h r).2 ≠ r) ∧
    (heapRead (calculate_rsi_st h r).1 r = heapRead h r ∧ (calculate_rsi_st h r).2 ≠ r) ∧
    (heapRead (calculate_macd_st h r).1 r = heapRead h r ∧
      (calculate_macd_st h r).2 ≠ r) ∧
    (heapRead (calculate_bollinger_st h r).1 r = heapRead h r ∧
      (calculate_bollinger_st h r).2 ≠ r) ∧
    (heapRead (calculate_kdj_st h r).1 r = heapRead h r ∧ (calculate_kdj_st h r).2 ≠ r) ∧
    (heapRead (calculate_volume_ma_st h r).1 r = heapRead h r ∧
      (calculate_volume_ma_st h r).2 ≠ r) ∧
    (heapRead (calculate_atr_st h r).1 r = heapRead h r ∧ (calculate_atr_st h r).2 ≠ r) ∧
    (heapRead (calculate_obv_st h r).1 r = heapRead h r ∧ (calculate_obv_st h r).2 ≠ r) ∧
    (heapRead (calculate_all_indicators_st h r).1 r = heapRead h r ∧
      ∀ r2, (calculate_all_indicators_st h r).2 = Except.ok r2 → r2 ≠ r) := by
  have single : ∀ f : DF → DF,
      heapRead (runCopyThen f h r).1 r = heapRead h r ∧ (runCopyThen f h r).2 ≠ r :=
    fun f => ⟨runCopyThen_read f h r r hr, by rw [runCopyThen_ref]; omega⟩
  have step : ∀ (f : DF → DF) (H : Heap) (ref : ℕ),
      heapRead H r = heapRead h r → r < List.length H →
      heapRead (runCopyThen f H ref).1 r = heapRead h r ∧
        r < List.length (runCopyThen f H ref).1 :=
    fun f H ref hRead hLt =>
      ⟨(runCopyThen_read f H ref r hLt).trans hRead,
       by rw [runCopyThen_len]; omega⟩
  refine ⟨single _, single _, single _, single _, single _, single _, single _,
    single _, single _, ?_⟩
  rw [calculate_all_indicators_st]
  cases hfm : firstMissing (heapRead (heapAlloc h (heapRead h r)).1
      (heapAlloc h (heapRead h r)).2) with
  | some c =>
      simp only [hfm]
      refine ⟨heapRead_append hr _, ?_⟩
      intro r2 hcon
      cases hcon
  | none =>
      simp only [hfm]
      set p0 := heapAlloc h (heapRead h r) with hp0
      set p1 := calculate_ma_st p0.1 p0.2 with hp1
      set p2 := calculate_ema_st p1.1 p1.2 with hp2
      set p3 := calculate_rsi_st p2.1 p2.2 with hp3
      set p4 := calculate_macd_st p3.1 p3.2 with hp4
      set p5 := calculate_bollinger_st p4.1 p4.2 with hp5
      set p6 := calculate_kdj_st p5.1 p5.2 with hp6
      set p7 := calculate_volume_ma_st p6.1 p6.2 with hp7
      set p8 := calculate_atr_st p7.1 p7.2 with hp8
      set p9 := calculate_obv_st p8.1 p8.2 with hp9
      have s0 : heapRead p0.1 r = heapRead h r ∧ r < List.length p0.1 := by
        rw [hp0]
        refine ⟨heapRead_append hr _, ?_⟩
        rw [heapAlloc]
        simp only [List.length_append, List.length_cons, List.length_nil]
        omega
      have s1 : heapRead p1.1 r = heapRead h r ∧ r < List.length p1.1 := by
        rw [hp1, calculate_ma_st]
        refine ⟨(runCopyThen_read _ _ _ r s0.2).trans s0.1, ?_⟩
        have := s0.2
        rw [runCopyThen_len]
        omega
      have s2 : heapRead p2.1 r = heapRead h r ∧ r < List.length p2.1 := by
        rw [hp2, calculate_ema_st]
        refine ⟨(runCopyThen_read _ _ _ r s1.2).trans s1.1, ?_⟩
        have := s1.2
        rw [runCopyThen_len]
        omega
      have s3 : heapRead p3.1 r = heapRead h r ∧ r < List.length p3.1 := by
        rw [hp3, calculate_rsi_st]
        refine ⟨(runCopyThen_read _ _ _ r s2.2).trans s2.1, ?_⟩
        have := s2.2
        rw [runCopyThen_len]
        omega
      have s4 : heapRead p4.1 r = heapRead h r ∧ r < List.length p4.1 := by
        rw [hp4, calculate_macd_st]
        refine ⟨(runCopyThen_read _ _ _ r s3.2).trans s3.1, ?_⟩
        have := s3.2
        rw [runCopyThen_len]
        omega
      have s5 : heapRead p5.1 r = heapRead h r ∧ r < List.length p5.1 := by
        rw [hp5, calculate_bollinger_st]
        refine ⟨(runCopyThen_read _ _ _ r s4.2).trans s4.1, ?_⟩
        have := s4.2
        rw [runCopyThen_len]
        omega
      have s6 : heapRead p6.1 r = heapRead h r ∧ r < List.length p6.1 := by
        rw [hp6, calculate_kdj_st]
        refine ⟨(runCopyThen_read _ _ _ r s5.2).trans s5.1, ?_⟩
        have := s5.2
        rw [runCopyThen_len]
        omega
      have s7 : heapRead p7.1 r = heapRead h r ∧ r < List.length p7.1 := by
        rw [hp7, calculate_volume_ma_st]
        refine ⟨(runCopyThen_read _ _ _ r s6.2).trans s6.1, ?_⟩
        have := s6.2
        rw [runCopyThen_len]
        omega
      have s8 : heapRead p8.1 r = heapRead h r ∧ r < List.length p8.1 := by
        rw [hp8, calculate_atr_st]
        refine ⟨(runCopyThen_read _ _ _ r s7.2).trans s7.1, ?_⟩
        have := s7.2
        rw [runCopyThen_len]
        omega
      have s9 : heapRead p9.1 r = heapRead h r ∧ r < List.length p9.1 := by
        rw [hp9, calculate_obv_st]
        refine ⟨(runCopyThen_read _ _ _ r s8.2).trans s8.1, ?_⟩
        have := s8.2
        rw [runCopyThen_len]
        omega
      refine ⟨s9.1, ?_⟩
      intro r2 hok
      cases hok
      have hval : p9.2 = List.length p8.1 := by
        rw [hp9, calculate_obv_st, runCopyThen_ref]
      have := s8.2
      omega

end Claims4

/-- C8 (witness): the no-mutation theorem applied to a one-frame heap. -/
theorem claim_C8_witness :
    heapRead (TechnicalAnalyzer.calculate_ma_st [dfFlat 1] 0).1 0 =
      heapRead [dfFlat 1] 0 ∧
    heapRead (TechnicalAnalyzer.calculate_all_indicators_st [dfFlat 1] 0).1 0 =
      heapRead [dfFlat 1] 0 :=
  ⟨(claim_C8_no_mutation [dfFlat 1] 0 (by decide)).1.1,
   (claim_C8_no_mutation [dfFlat 1] 0 (by decide)).2.2.2.2.2.2.2.2.2.1⟩
